import Mathlib

/-!
# Rotations.hpp: exponential and logarithm maps of SO(3)

A shallow embedding of `src/Rotations/Rotations.hpp`.

* `double` is read as an exact scalar: the definitions are generic in an ordered
  field `K` and in the routines of `<math.h>`; the theorems take `K = ℝ` with the
  real `sin`, `cos`, `sqrt`, `floor`.  Rounding is not modelled.
* Source indices are 1-based (`u(3)`, `X(3,2)`, `vec[1]`); the embedding uses
  `Fin 3`, so source index `i` is `i - 1` here.  The coefficient arrays
  `double a[4]` keep their source indices `0..3`.
* A null destination pointer is `none`; dereferencing it makes the call fail
  (`none` as result of the whole call).
-/

namespace Rotations

/-! ## Collaborators that are not part of the source file -/

/-- The routines of `<math.h>` the source calls (`sin`, `cos`, `sqrt`, `floor`)
and the constant `M_PI`. -/
structure Libm (K : Type) where
  /-- The routine `sin`. -/
  sin : K → K
  /-- The routine `cos`. -/
  cos : K → K
  /-- The routine `sqrt`. -/
  sqrt : K → K
  /-- The routine `floor`. -/
  floor : K → K
  /-- The constant `M_PI`. -/
  pi : K

/-- The real-number reading of `<math.h>`. -/
noncomputable def Libm.real : Libm ℝ where
  sin := Real.sin
  cos := Real.cos
  sqrt := Real.sqrt
  floor := fun x => (⌊x⌋ : ℝ)
  pi := Real.pi

/-- Modelled from the spec: `Vector3D.h` is not part of the sources; a 3-vector
of scalars. -/
abbrev Vector3D (K : Type) := Fin 3 → K

/-- Modelled from the spec: `Matrix3D.h` is not part of the sources; a 3×3
matrix of scalars, entry `(row, column)`. -/
abbrev Matrix3D (K : Type) := Matrix (Fin 3) (Fin 3) K

/-- A coefficient array `double a[4]`. -/
abbrev Coef (K : Type) := Fin 4 → K

section Defs

variable {K : Type} [LinearOrderedField K]

/-- Modelled from the spec: the brace initialiser of `Matrix3D`, absent from the
sources.  The three inner braces are the three columns (the storage of the
collaborator type is column-major): this is the reading under which `Spin` has
`Ŝ₃₂ = u₁, Ŝ₁₃ = u₂, Ŝ₂₁ = u₃` as the spec states, under which `Axial` undoes
`Spin`, and under which `TanSO3`, written with the `(row, column)` accessor,
has the same skew part as `dExpSO3`. -/
def Matrix3D.ofColumns (c1 c2 c3 : Fin 3 → K) : Matrix3D K :=
  Matrix.of fun r c => ![c1, c2, c3] c r

/-- Modelled from the spec: `u.dot(w)`, the dot product. -/
def dot (u w : Vector3D K) : K := u 0 * w 0 + u 1 * w 1 + u 2 * w 2

/-- Modelled from the spec: `u.norm()`, the Euclidean norm. -/
def norm (m : Libm K) (u : Vector3D K) : K := m.sqrt (dot u u)

/-- Modelled from the spec: `u.cross(w)`, the cross product. -/
def cross (u w : Vector3D K) : Vector3D K :=
  ![u 1 * w 2 - u 2 * w 1, u 2 * w 0 - u 0 * w 2, u 0 * w 1 - u 1 * w 0]

/-- Modelled from the spec: `u.bun(w)`, the outer (tensor) product `u ⊗ w`. -/
def bun (u w : Vector3D K) : Matrix3D K := Matrix.of fun i j => u i * w j

/-- Modelled from the spec: `cot` is called by the source but is not a routine
of `<math.h>`; the cotangent `cos x / sin x`. -/
def cot (m : Libm K) (x : K) : K := m.cos x / m.sin x

/-- The constant `Eye3` (lines 12-16). -/
def Eye3 : Matrix3D K := Matrix3D.ofColumns ![1, 0, 0] ![0, 1, 0] ![0, 0, 1]

/-! ## The source functions -/

/-- The function `Axial` (lines 18-26): `{X(3,2), X(1,3), X(2,1)}`. -/
def Axial (X : Matrix3D K) : Vector3D K := ![X 2 1, X 0 2, X 1 0]

/-- The function `Spin` (lines 28-48). -/
def Spin (u : Vector3D K) : Matrix3D K :=
  Matrix3D.ofColumns ![  0  ,  u 2, -u 1]
                     ![-u 2,   0  ,  u 0]
                     ![ u 1, -u 0,   0  ]

/-- Modelled from the spec: `addDiagonal(s)` of `Matrix3D`, adds `s·I`. -/
def addDiagonal (M : Matrix3D K) (s : K) : Matrix3D K := M + s • Eye3

/-- Modelled from the spec: `addTensorProduct(u, w, s)` of `Matrix3D`, adds
`s·(u ⊗ w)`. -/
def addTensorProduct (M : Matrix3D K) (u w : Vector3D K) (s : K) : Matrix3D K :=
  M + s • bun u w

/-- Modelled from the spec: `addSpin(u, s)` of `Matrix3D`, adds `s·Spin(u)`. -/
def addSpin (M : Matrix3D K) (u : Vector3D K) (s : K) : Matrix3D K := M + s • Spin u

/-- The three destinations of `GibSO3` after the call; `none` is a null
pointer. -/
structure GibOut (K : Type) where
  /-- The destination `a`. -/
  a : Option (Coef K)
  /-- The destination `b`. -/
  b : Option (Coef K)
  /-- The destination `c`. -/
  c : Option (Coef K)

/-- The function `GibSO3` (lines 50-137).  The arguments `a`, `b`, `c` are the destinations
with their contents before the call (`none`: `nullptr`); the result is `none`
when the call dereferences a null pointer. -/
def GibSO3 (m : Libm K) (vec : Vector3D K) (a b c : Option (Coef K)) : Option (GibOut K) :=
  let angle2 := dot vec vec
  if angle2 ≤ 1 / 10000000 then
    let a := a.map fun a =>
      let a := Function.update a 0 0
      let a := Function.update a 1 (1 - angle2 * (1 / 6 - angle2 * (1 / 120 - angle2 / 5040)))
      let a := Function.update a 2 (1 / 2 - angle2 * (1 / 24 - angle2 * (1 / 720 - angle2 / 40320)))
      Function.update a 3 (1 / 6 - angle2 / (1 / 120 - angle2 / (1 / 5040 - angle2 / 362880)))
    let b := b.map fun b =>
      let b := Function.update b 1 (-1 / 3 + angle2 * (1 / 30 - angle2 * (1 / 840 - angle2 / 45360)))
      let b := Function.update b 2
        (-1 / 12 + angle2 * (1 / 180 - angle2 * (1 / 6720 - angle2 / 453600)))
      Function.update b 3 (-1 / 60 + angle2 * (1 / 1260 - angle2 * (1 / 60480 - angle2 / 4989600)))
    match c with
    | none => some ⟨a, b, none⟩
    | some c =>
      -- `c[1] = b[3] - b[2]` reads through `b` whether or not it is null
      match b with
      | none => none
      | some b =>
        let c := Function.update c 1 (b 3 - b 2)
        let c := Function.update c 2
          (1 / 90 - angle2 * (1 / 1680 - angle2 * (1 / 75600 - angle2 / 5987520)))
        let c := Function.update c 3
          (1 / 630 - angle2 * (1 / 15120 - angle2 * (1 / 831600 - angle2 / 77837760)))
        some ⟨a, some b, some c⟩
  else
    let angle := norm m vec
    let sn := m.sin angle
    let cs := m.cos angle
    let angle3 := angle * angle2
    let angle4 := angle * angle3
    let angle5 := angle * angle4
    let a := a.map fun a =>
      let a := Function.update a 0 cs
      let a := Function.update a 1 (sn / angle)
      let a := Function.update a 2 ((1 - a 0) / angle2)
      Function.update a 3 ((angle - sn) / angle3)
    let b := b.map fun b =>
      let b := Function.update b 1 ((angle * cs - sn) / angle3)
      let b := Function.update b 2 ((angle * sn - 2 + 2 * cs) / angle4)
      Function.update b 3 ((3 * sn - 2 * angle - angle * cs) / angle5)
    let c := c.map fun c =>
      let c := Function.update c 1 ((3 * sn - angle2 * sn - 3 * angle * cs) / angle5)
      let c := Function.update c 2 ((8 - 8 * cs - 5 * angle * sn + angle2 * cs) / (angle5 * angle))
      Function.update c 3 ((8 * angle + 7 * angle * cs + angle2 * sn - 15 * sn) / (angle5 * angle2))
    some ⟨a, b, c⟩

/-- An uninitialised local `double a[4]`; every element the callers read is
written by `GibSO3` first. -/
def localCoef : Coef K := fun _ => 0

/-- The function `dExpSO3` (lines 186-208). -/
def dExpSO3 (m : Libm K) (v : Vector3D K) : Option (Matrix3D K) := do
  let g ← GibSO3 m v (some localCoef) none none
  let a ← g.a
  let T : Matrix3D K := 0
  pure (addTensorProduct (addSpin (addDiagonal T (a 1)) v (a 2)) v v (a 3))

/-- The function `dExpInvSO3` (lines 210-239).  `1/20` and `1/12` are quotients of `int`
literals, hence `0`; the assignment to the parameter `v` rebinds a local copy;
`Sv` is formed before the wrapping step. -/
def dExpInvSO3 (m : Libm K) (v : Vector3D K) : Matrix3D K :=
  let tol : K := ((1 / 20 : Int) : K)
  let Sv := Spin v
  let angle := norm m v
  let v : Vector3D K :=
    if |angle| > m.pi / (101 / 100) then
      fun i => v i - 2 * v i / angle * m.floor (angle + m.pi) / 2
    else v
  let angle := if |angle| > m.pi / (101 / 100) then norm m v else angle
  let angle2 := angle * angle
  let angle3 := angle * angle2
  let angle4 := angle * angle3
  let angle5 := angle * angle4
  let angle6 := angle * angle5
  let eta :=
    if angle > tol then
      (1 - (1 / 2) * angle * cot m ((1 / 2) * angle)) / angle2
    else
      ((1 / 12 : Int) : K) + angle2 / 720 + angle4 / 30240 + angle6 / 1209600
  Eye3 - (1 / 2 : K) • Sv + eta • Sv * Sv

/-- The function `ExpSO3` (lines 313-328).  The name `th` in `GibSO3(th, a)` is the
parameter `v` under its former name (the comment of line 323 calls the
argument of `Spin` the axial vector `th`). -/
def ExpSO3 (m : Libm K) (v : Vector3D K) : Option (Matrix3D K) := do
  let g ← GibSO3 m v (some localCoef) none none
  let a ← g.a
  let Th := Spin v
  pure (Eye3 + a 1 • Th + a 2 • Th * Th)

/-- The function `LogSO3` (lines 332-369).  `Matrix2Versor` and `Versor2Vector` are only
declared in the source (lines 8-9) and are taken as parameters. -/
def LogSO3 {Versor : Type} (Matrix2Versor : Matrix3D K → Versor)
    (Versor2Vector : Versor → Vector3D K) (R : Matrix3D K) : Vector3D K :=
  Versor2Vector (Matrix2Versor R)

/-- The function `TanSO3` (lines 372-408). -/
def TanSO3 (m : Libm K) (vec : Vector3D K) : Matrix3D K :=
  let angle2 := dot vec vec
  let a : K × K × K :=
    if angle2 < 1 / 100000000 then
      (1 - angle2 * (1 / 6 - angle2 * (1 / 120 - angle2 / 5040)),
       1 / 2 - angle2 * (1 / 24 - angle2 * (1 / 720 - angle2 / 40320)),
       1 / 6 - angle2 / (1 / 120 - angle2 / (1 / 5040 - angle2 / 362880)))
    else
      let angle := m.sqrt angle2
      let a1 := m.sin angle / angle
      (a1, (1 - m.cos angle) / angle2, (1 - a1) / angle2)
  let a1 := a.1
  let a2 := a.2.1
  let a3 := a.2.2
  Matrix.of fun r c =>
    ![![        a1 + a3 * vec 0 * vec 0, -vec 2 * a2 + a3 * vec 0 * vec 1,  vec 1 * a2 + a3 * vec 0 * vec 2],
      ![ vec 2 * a2 + a3 * vec 1 * vec 0,         a1 + a3 * vec 1 * vec 1, -vec 0 * a2 + a3 * vec 1 * vec 2],
      ![-vec 1 * a2 + a3 * vec 2 * vec 0,  vec 0 * a2 + a3 * vec 2 * vec 1,         a1 + a3 * vec 2 * vec 2]] r c

/-- The general branch of `GibSO3` (lines 109-135) with the three families
requested, as a function of `angle2`, `angle` and the contents of the
destinations before the call. -/
def GibSO3_general (m : Libm K) (angle2 angle : K) (a b c : Coef K) :
    Coef K × Coef K × Coef K :=
  let sn := m.sin angle
  let cs := m.cos angle
  let angle3 := angle * angle2
  let angle4 := angle * angle3
  let angle5 := angle * angle4
  let a := Function.update a 0 cs
  let a := Function.update a 1 (sn / angle)
  let a := Function.update a 2 ((1 - a 0) / angle2)
  let a := Function.update a 3 ((angle - sn) / angle3)
  let b := Function.update b 1 ((angle * cs - sn) / angle3)
  let b := Function.update b 2 ((angle * sn - 2 + 2 * cs) / angle4)
  let b := Function.update b 3 ((3 * sn - 2 * angle - angle * cs) / angle5)
  let c := Function.update c 1 ((3 * sn - angle2 * sn - 3 * angle * cs) / angle5)
  let c := Function.update c 2 ((8 - 8 * cs - 5 * angle * sn + angle2 * cs) / (angle5 * angle))
  let c := Function.update c 3
    ((8 * angle + 7 * angle * cs + angle2 * sn - 15 * sn) / (angle5 * angle2))
  (a, b, c)

/-- The function `ddTanSO3` (lines 141-184).  The constants `psq` and `vov` of
lines 156-157 are not used by the accumulation calls. -/
def ddTanSO3 (m : Libm K) (v p q : Vector3D K) : Option (Matrix3D K) := do
  let g ← GibSO3 m v (some localCoef) (some localCoef) (some localCoef)
  let a ← g.a
  let b ← g.b
  let c ← g.c
  let pxq := cross p q
  let vxp := cross v p
  let dT : Matrix3D K := 0
  let dT := addTensorProduct dT p q (a 3)
  let dT := addTensorProduct dT q p (a 3)
  let dT := addDiagonal dT (b 1 * dot p q)
  let dT := addTensorProduct dT pxq v (b 2)
  let dT := addTensorProduct dT v pxq (b 2)
  let dT := addDiagonal dT (dot vxp q * b 2)
  let dT := addTensorProduct dT q v (b 3 * dot v p)
  let dT := addTensorProduct dT v q (b 3 * dot v p)
  let dT := addTensorProduct dT p v (b 3 * dot v q)
  let dT := addTensorProduct dT v p (b 3 * dot v q)
  let dT := addDiagonal dT (dot v p * dot v q * b 3)
  let dT := addTensorProduct dT v v
    (c 1 * dot p q + c 2 * dot vxp q + c 3 * dot v p * dot v q)
  pure dT

/-- The value assigned to `v` by the wrapping statement
`v = v - 2*v/angle*floor(angle + M_PI)/2` of lines 222 and 251. -/
def wrapped (m : Libm K) (angle : K) (v : Vector3D K) : Vector3D K :=
  fun i => v i - 2 * v i / angle * m.floor (angle + m.pi) / 2

/-- The coefficient `eta` of `dExpInvSO3` (lines 216 and 226-237) as a function
of `angle`; `1/20` and `1/12` are quotients of `int` literals. -/
def dExpInvSO3_eta (m : Libm K) (angle : K) : K :=
  let tol : K := ((1 / 20 : Int) : K)
  let angle2 := angle * angle
  let angle3 := angle * angle2
  let angle4 := angle * angle3
  let angle5 := angle * angle4
  let angle6 := angle * angle5
  if angle > tol then
    (1 - (1 / 2) * angle * cot m ((1 / 2) * angle)) / angle2
  else
    ((1 / 12 : Int) : K) + angle2 / 720 + angle4 / 30240 + angle6 / 1209600

/-- The coefficients `(eta, mu)` of `ddExpInvSO3` (lines 247 and 256-274) as a
function of `angle`; `1/20`, `1/12` and `1/360` are quotients of `int`
literals. -/
def ddExpInvSO3_coef (m : Libm K) (angle : K) : K × K :=
  let tol : K := ((1 / 20 : Int) : K)
  let angle2 := angle * angle
  let angle3 := angle * angle2
  let angle4 := angle * angle3
  let angle5 := angle * angle4
  let angle6 := angle * angle5
  if angle < tol then
    (((1 / 12 : Int) : K) + angle2 / 720 + angle4 / 30240 + angle6 / 1209600,
     ((1 / 360 : Int) : K) + angle2 / 7560 + angle4 / 201600 + angle6 / 5987520)
  else
    let an2 := angle / 2
    let sn := m.sin an2
    let cs := m.cos an2
    ((sn - angle2 * cs) / (angle2 * sn),
     (angle * (angle + 2 * sn * cs) - 8 * sn * sn) / (4 * angle4 * sn * sn))

/-- The function `ddExpInvSO3` (lines 241-281).  The function `dLogSO3` is not
declared anywhere in the source and is a parameter; the assignment to the
parameter `v` rebinds a local copy; the coefficients are those of
`ddExpInvSO3_coef`. -/
def ddExpInvSO3 (m : Libm K) (dLogSO3 : Vector3D K → Matrix3D K) (th v : Vector3D K) :
    Matrix3D K :=
  let angle := norm m th
  let v : Vector3D K :=
    if |angle| > m.pi / (101 / 100) then
      fun i => v i - 2 * v i / angle * m.floor (angle + m.pi) / 2
    else v
  let angle := if |angle| > m.pi / (101 / 100) then norm m v else angle
  let eta := (ddExpInvSO3_coef m angle).1
  let mu := (ddExpInvSO3_coef m angle).2
  let St2 := Spin th
  let St2 := St2 * St2
  let dH := -(1 / 2 : K) • Spin v
    + eta • (dot th v • Eye3 + bun th v - (2 : K) • bun v th)
    + mu • St2 * bun v th
  dH * dLogSO3 th

/-- The function `dTanSO3` (lines 283-311).  The names `a2`, `a3`, `b1`, `b2`,
`b3` are not declared and are read as `a[2]`, `a[3]`, `b[1]`, `b[2]`, `b[3]`;
`nargin` and the value of `a.bun(v)` (`a` is the coefficient array) are not
declared either and are parameters.  The `switch` has no `break`: after the
assignment of `case 'R'` control falls into `case 'L'`.  A default-constructed
`Matrix3D Xi` is returned for any other selector. -/
def dTanSO3 (m : Libm K) (nargin : Nat) (abunv : Matrix3D K) (v p : Vector3D K) (repr : Char) :
    Option (Matrix3D K) := do
  let repr := if nargin < 3 then 'L' else repr
  let g ← GibSO3 m v (some localCoef) (some localCoef) none
  let a ← g.a
  let b ← g.b
  let vxpov := bun (cross v p) v
  let Xi : Matrix3D K := 0
  let Xi :=
    if repr = 'R' then
      -(a 2) • Spin p + (a 3 * dot v p) • Eye3 + a 3 • bun v p
        + b 1 • abunv + b 2 • vxpov + (b 3 * dot v p) • bun v v
    else Xi
  let Xi :=
    if repr = 'R' ∨ repr = 'L' then
      a 2 • Spin p + (a 3 * dot v p) • Eye3 + a 3 • bun v p
        + b 1 • abunv - b 2 • vxpov + (b 3 * dot v p) • bun v v
    else Xi
  pure Xi

end Defs

/-! ## Auxiliary facts -/

section
variable {K : Type} [LinearOrderedField K]

lemma Spin_00 (u : Vector3D K) : Spin u 0 0 = 0 := rfl
lemma Spin_01 (u : Vector3D K) : Spin u 0 1 = -u 2 := rfl
lemma Spin_02 (u : Vector3D K) : Spin u 0 2 = u 1 := rfl
lemma Spin_10 (u : Vector3D K) : Spin u 1 0 = u 2 := rfl
lemma Spin_11 (u : Vector3D K) : Spin u 1 1 = 0 := rfl
lemma Spin_12 (u : Vector3D K) : Spin u 1 2 = -u 0 := rfl
lemma Spin_20 (u : Vector3D K) : Spin u 2 0 = -u 1 := rfl
lemma Spin_21 (u : Vector3D K) : Spin u 2 1 = u 0 := rfl
lemma Spin_22 (u : Vector3D K) : Spin u 2 2 = 0 := rfl

lemma Eye3_00 : (Eye3 : Matrix3D K) 0 0 = 1 := rfl
lemma Eye3_01 : (Eye3 : Matrix3D K) 0 1 = 0 := rfl
lemma Eye3_02 : (Eye3 : Matrix3D K) 0 2 = 0 := rfl
lemma Eye3_10 : (Eye3 : Matrix3D K) 1 0 = 0 := rfl
lemma Eye3_11 : (Eye3 : Matrix3D K) 1 1 = 1 := rfl
lemma Eye3_12 : (Eye3 : Matrix3D K) 1 2 = 0 := rfl
lemma Eye3_20 : (Eye3 : Matrix3D K) 2 0 = 0 := rfl
lemma Eye3_21 : (Eye3 : Matrix3D K) 2 1 = 0 := rfl
lemma Eye3_22 : (Eye3 : Matrix3D K) 2 2 = 1 := rfl

lemma cross_0 (v w : Vector3D K) : cross v w 0 = v 1 * w 2 - v 2 * w 1 := rfl
lemma cross_1 (v w : Vector3D K) : cross v w 1 = v 2 * w 0 - v 0 * w 2 := rfl
lemma cross_2 (v w : Vector3D K) : cross v w 2 = v 0 * w 1 - v 1 * w 0 := rfl

lemma bun_apply (u w : Vector3D K) (i j : Fin 3) : bun u w i j = u i * w j := rfl

lemma Eye3_eq_one : (Eye3 : Matrix3D K) = 1 := by
  ext i j
  fin_cases i <;> fin_cases j <;> rfl

/-- The Rodrigues form `I + a₁·S + a₂·S²` is orthogonal up to a multiple of `S²`. -/
lemma rodrigues_transpose_mul (v : Vector3D K) (a1 a2 : K) :
    (Eye3 + a1 • Spin v + a2 • Spin v * Spin v).transpose
        * (Eye3 + a1 • Spin v + a2 • Spin v * Spin v)
      = 1 + (2 * a2 - dot v v * a2 ^ 2 - a1 ^ 2) • (Spin v * Spin v) := by
  rw [← @Eye3_eq_one K _]
  ext i j
  fin_cases i <;> fin_cases j <;>
    simp only [Fin.zero_eta, Fin.mk_one, Fin.reduceFinMk, Matrix.add_apply, Matrix.smul_apply,
      Matrix.mul_apply, Matrix.transpose_apply, Fin.sum_univ_three, smul_eq_mul, dot,
      Eye3_00, Eye3_01, Eye3_02, Eye3_10, Eye3_11, Eye3_12, Eye3_20, Eye3_21, Eye3_22,
      Spin_00, Spin_01, Spin_02, Spin_10, Spin_11, Spin_12, Spin_20, Spin_21, Spin_22] <;> ring

lemma rodrigues_det (v : Vector3D K) (a1 a2 : K) :
    (Eye3 + a1 • Spin v + a2 • Spin v * Spin v).det
      = 1 - dot v v * (2 * a2 - dot v v * a2 ^ 2 - a1 ^ 2) := by
  rw [Matrix.det_fin_three]
  simp only [Matrix.add_apply, Matrix.smul_apply,
    Matrix.mul_apply, Fin.sum_univ_three, smul_eq_mul, dot,
    Eye3_00, Eye3_01, Eye3_02, Eye3_10, Eye3_11, Eye3_12, Eye3_20, Eye3_21, Eye3_22,
    Spin_00, Spin_01, Spin_02, Spin_10, Spin_11, Spin_12, Spin_20, Spin_21, Spin_22]
  ring

lemma Spin_sq_apply (v : Vector3D K) (i j : Fin 3) :
    (Spin v * Spin v) i j = v i * v j - dot v v * Eye3 i j := by
  fin_cases i <;> fin_cases j <;>
    simp only [Fin.zero_eta, Fin.mk_one, Fin.reduceFinMk, Matrix.mul_apply, Fin.sum_univ_three,
      dot, Eye3_00, Eye3_01, Eye3_02, Eye3_10, Eye3_11, Eye3_12, Eye3_20, Eye3_21, Eye3_22,
      Spin_00, Spin_01, Spin_02, Spin_10, Spin_11, Spin_12, Spin_20, Spin_21, Spin_22] <;> ring

lemma dot_self_nonneg (v : Vector3D K) : 0 ≤ dot v v := by
  unfold dot
  linarith [mul_self_nonneg (v 0), mul_self_nonneg (v 1), mul_self_nonneg (v 2)]

lemma abs_Spin_sq_le (v : Vector3D K) (i j : Fin 3) : |(Spin v * Spin v) i j| ≤ dot v v := by
  rw [Spin_sq_apply, abs_le]
  have h0 := mul_self_nonneg (v 0)
  have h1 := mul_self_nonneg (v 1)
  have h2 := mul_self_nonneg (v 2)
  have h01 := mul_self_nonneg (v 0 - v 1)
  have h01' := mul_self_nonneg (v 0 + v 1)
  have h02 := mul_self_nonneg (v 0 - v 2)
  have h02' := mul_self_nonneg (v 0 + v 2)
  have h12 := mul_self_nonneg (v 1 - v 2)
  have h12' := mul_self_nonneg (v 1 + v 2)
  fin_cases i <;> fin_cases j <;>
    simp only [Fin.zero_eta, Fin.mk_one, Fin.reduceFinMk, dot,
      Eye3_00, Eye3_01, Eye3_02, Eye3_10, Eye3_11, Eye3_12, Eye3_20, Eye3_21, Eye3_22] <;>
    constructor <;> linarith

/-- The product `H·T − I` of the inverse tangent form with the tangent form, on
the basis `I`, `S`, `S²`. -/
lemma inv_tangent_mul (v : Vector3D K) (eta a1 a2 a3 : K) :
    (Eye3 - (1 / 2 : K) • Spin v + eta • Spin v * Spin v)
        * (a1 • Eye3 + a2 • Spin v + a3 • bun v v) - 1
      = (a1 + a3 * dot v v - 1) • (1 : Matrix3D K)
        + (a2 - a1 / 2 - eta * a2 * dot v v) • Spin v
        + (a3 - a2 / 2 + eta * a1) • (Spin v * Spin v) := by
  rw [← @Eye3_eq_one K _]
  ext i j
  fin_cases i <;> fin_cases j <;>
    simp only [Fin.zero_eta, Fin.mk_one, Fin.reduceFinMk, Matrix.add_apply, Matrix.sub_apply,
      Matrix.smul_apply, Matrix.mul_apply, Fin.sum_univ_three, smul_eq_mul, dot, bun_apply,
      Eye3_00, Eye3_01, Eye3_02, Eye3_10, Eye3_11, Eye3_12, Eye3_20, Eye3_21, Eye3_22,
      Spin_00, Spin_01, Spin_02, Spin_10, Spin_11, Spin_12, Spin_20, Spin_21, Spin_22] <;> ring

lemma tangent_mulVec (v w : Vector3D K) (A B C : K) :
    Matrix.mulVec (A • Eye3 + B • Spin v + C • bun v v) w
      = A • w + B • cross v w + (C * dot v w) • v := by
  funext i
  fin_cases i <;>
    simp only [Fin.zero_eta, Fin.mk_one, Fin.reduceFinMk, Matrix.mulVec, Matrix.dotProduct,
      Fin.sum_univ_three, Matrix.add_apply, Matrix.smul_apply, Pi.add_apply, Pi.smul_apply,
      smul_eq_mul, bun_apply, dot, cross_0, cross_1, cross_2,
      Eye3_00, Eye3_01, Eye3_02, Eye3_10, Eye3_11, Eye3_12, Eye3_20, Eye3_21, Eye3_22,
      Spin_00, Spin_01, Spin_02, Spin_10, Spin_11, Spin_12, Spin_20, Spin_21, Spin_22] <;> ring

lemma Spin_tangent (v w : Vector3D K) (A B c : K) (i j : Fin 3) :
    Spin (A • w + B • cross v w + c • v) i j
      = A * Spin w i j + B * (Spin v * Spin w - Spin w * Spin v) i j + c * Spin v i j := by
  fin_cases i <;> fin_cases j <;>
    simp only [Fin.zero_eta, Fin.mk_one, Fin.reduceFinMk, Matrix.sub_apply, Matrix.mul_apply,
      Fin.sum_univ_three, Pi.add_apply, Pi.smul_apply, smul_eq_mul, cross_0, cross_1, cross_2,
      Spin_00, Spin_01, Spin_02, Spin_10, Spin_11, Spin_12, Spin_20, Spin_21, Spin_22] <;> ring

/-- The difference between `Spin(T·w)·R` and the entrywise derivative of the
Rodrigues form along `w`, on the basis `W·S`, `S`, `S²`. -/
lemma exp_differential_identity (v w : Vector3D K) (A B C p q : K) :
    Spin (Matrix.mulVec (A • Eye3 + B • Spin v + C • bun v v) w)
        * (Eye3 + A • Spin v + B • Spin v * Spin v)
      - (p • Spin v + A • Spin w + q • (Spin v * Spin v)
          + B • (Spin v * Spin w + Spin w * Spin v))
      = (A ^ 2 + B ^ 2 * dot v v - 2 * B) • (Spin w * Spin v)
        + (dot v w * (C - A * B - B * C * dot v v) - p) • Spin v
        + (dot v w * (A * C - B ^ 2) - q) • (Spin v * Spin v) := by
  rw [tangent_mulVec]
  ext i j
  simp only [Matrix.sub_apply, Matrix.add_apply, Matrix.smul_apply, Matrix.mul_apply,
    Fin.sum_univ_three, Spin_tangent, smul_eq_mul]
  fin_cases i <;> fin_cases j <;>
    simp only [Fin.zero_eta, Fin.mk_one, Fin.reduceFinMk, dot,
      Eye3_00, Eye3_01, Eye3_02, Eye3_10, Eye3_11, Eye3_12, Eye3_20, Eye3_21, Eye3_22,
      Spin_00, Spin_01, Spin_02, Spin_10, Spin_11, Spin_12, Spin_20, Spin_21, Spin_22] <;> ring

lemma Spin_add_smul (v w : Vector3D K) (e : K) : Spin (v + e • w) = Spin v + e • Spin w := by
  ext i j
  fin_cases i <;> fin_cases j <;>
    simp only [Fin.zero_eta, Fin.mk_one, Fin.reduceFinMk, Matrix.add_apply, Matrix.smul_apply,
      Pi.add_apply, Pi.smul_apply, smul_eq_mul,
      Spin_00, Spin_01, Spin_02, Spin_10, Spin_11, Spin_12, Spin_20, Spin_21, Spin_22] <;> ring

lemma dot_add_smul (v w : Vector3D K) (e : K) :
    dot (v + e • w) (v + e • w) = dot v v + 2 * dot v w * e + dot w w * e ^ 2 := by
  simp only [dot, Pi.add_apply, Pi.smul_apply, smul_eq_mul]
  ring

end

section
variable {K : Type} [LinearOrderedField K]

lemma ExpSO3_small (m : Libm K) (v : Vector3D K) (h : dot v v ≤ 1 / 10000000) :
    ExpSO3 m v = some (Eye3
      + (1 - dot v v * (1 / 6 - dot v v * (1 / 120 - dot v v / 5040))) • Spin v
      + (1 / 2 - dot v v * (1 / 24 - dot v v * (1 / 720 - dot v v / 40320))) • Spin v * Spin v) := by
  simp only [ExpSO3, GibSO3]
  rw [if_pos h]
  simp [Function.update]

lemma ExpSO3_general (m : Libm K) (v : Vector3D K) (h : ¬ dot v v ≤ 1 / 10000000) :
    ExpSO3 m v = some (Eye3
      + (m.sin (norm m v) / norm m v) • Spin v
      + ((1 - m.cos (norm m v)) / dot v v) • Spin v * Spin v) := by
  simp only [ExpSO3, GibSO3]
  rw [if_neg h]
  simp [Function.update]

lemma dExpSO3_small (m : Libm K) (v : Vector3D K) (h : dot v v ≤ 1 / 10000000) :
    dExpSO3 m v = some (
      (1 - dot v v * (1 / 6 - dot v v * (1 / 120 - dot v v / 5040))) • Eye3
      + (1 / 2 - dot v v * (1 / 24 - dot v v * (1 / 720 - dot v v / 40320))) • Spin v
      + (1 / 6 - dot v v / (1 / 120 - dot v v / (1 / 5040 - dot v v / 362880))) • bun v v) := by
  simp only [dExpSO3, GibSO3]
  rw [if_pos h]
  simp [Function.update, addDiagonal, addSpin, addTensorProduct]

lemma dExpSO3_general (m : Libm K) (v : Vector3D K) (h : ¬ dot v v ≤ 1 / 10000000) :
    dExpSO3 m v = some (
      (m.sin (norm m v) / norm m v) • Eye3
      + ((1 - m.cos (norm m v)) / dot v v) • Spin v
      + ((norm m v - m.sin (norm m v)) / (norm m v * dot v v)) • bun v v) := by
  simp only [dExpSO3, GibSO3]
  rw [if_neg h]
  simp [Function.update, addDiagonal, addSpin, addTensorProduct]

end

lemma real_general_defect (x : ℝ) (hx : 0 < x) :
    2 * ((1 - Real.cos (Real.sqrt x)) / x)
      - x * ((1 - Real.cos (Real.sqrt x)) / x) ^ 2
      - (Real.sin (Real.sqrt x) / Real.sqrt x) ^ 2 = 0 := by
  have hs : Real.sqrt x ≠ 0 := (Real.sqrt_pos.mpr hx).ne'
  have hsq : Real.sqrt x ^ 2 = x := Real.sq_sqrt hx.le
  have htrig := Real.sin_sq_add_cos_sq (Real.sqrt x)
  have hx0 : x ≠ 0 := hx.ne'
  field_simp
  linear_combination (-x ^ 3) * htrig


/-! ## Skew isomorphism -/

/-- C1: for every 3-vector `v`, `Axial (Spin v) = v`. -/
theorem Axial_Spin {K : Type} [LinearOrderedField K] (v : Vector3D K) :
    Axial (Spin v) = v := by
  funext i
  fin_cases i <;> simp [Axial, Spin, Matrix3D.ofColumns]

/-- C2: `Spin u` has zero diagonal, `S(3,2) = u₁`, `S(1,3) = u₂`, `S(2,1) = u₃`,
`S(2,3) = -u₁`, `S(3,1) = -u₂`, `S(1,2) = -u₃` (row index first); and
`Spin (1,2,3)` has rows `[0,-3,2]`, `[3,0,-1]`, `[-2,1,0]`. -/
theorem Spin_entries {K : Type} [LinearOrderedField K] (u : Vector3D K) :
    (Spin u 0 0 = 0 ∧ Spin u 1 1 = 0 ∧ Spin u 2 2 = 0) ∧
    (Spin u 2 1 = u 0 ∧ Spin u 0 2 = u 1 ∧ Spin u 1 0 = u 2) ∧
    (Spin u 1 2 = -u 0 ∧ Spin u 2 0 = -u 1 ∧ Spin u 0 1 = -u 2) ∧
    Spin (![1, 2, 3] : Vector3D K) = !![0, -3, 2; 3, 0, -1; -2, 1, 0] := by
  refine ⟨?_, ?_, ?_, ?_⟩
  · simp [Spin, Matrix3D.ofColumns]
  · simp [Spin, Matrix3D.ofColumns]
  · simp [Spin, Matrix3D.ofColumns]
  · ext i j
    fin_cases i <;> fin_cases j <;> simp [Spin, Matrix3D.ofColumns]

/-! ## Exponential map -/

/-- In the general branch over the reals `ExpSO3 v` is a rotation matrix. -/
lemma ExpSO3_real_general_rotation (v : Vector3D ℝ) (h : ¬ dot v v ≤ 1 / 10000000) :
    ∃ R, ExpSO3 Libm.real v = some R ∧ Matrix.transpose R * R = 1 ∧ R.det = 1 := by
  have hx : 0 < dot v v := lt_trans (by norm_num) (not_le.mp h)
  have hd := real_general_defect (dot v v) hx
  refine ⟨_, ExpSO3_general _ _ h, ?_, ?_⟩
  · rw [rodrigues_transpose_mul]
    simp only [norm, Libm.real]
    rw [hd]
    simp
  · rw [rodrigues_det]
    simp only [norm, Libm.real]
    rw [hd]
    simp

/-- In exact arithmetic the truncation of the series is visible: at
`v = (1/10000, 0, 0)`, in the small-angle series branch, `R = ExpSO3 v` has
`Rᵗ·R ≠ I` and `det R ≠ 1` (the defect is of the order of `5e-46`).  The
orthogonality of the series branch is therefore stated with a tolerance. -/
lemma ExpSO3_small_not_orthogonal :
    ∃ R, ExpSO3 Libm.real ![1 / 10000, 0, 0] = some R ∧
      Matrix.transpose R * R ≠ 1 ∧ R.det ≠ 1 := by
  have hx : dot (![1 / 10000, 0, 0] : Vector3D ℝ) ![1 / 10000, 0, 0] = 1 / 100000000 := by
    norm_num [dot]
  refine ⟨_, ExpSO3_small _ _ (by rw [hx]; norm_num), ?_, ?_⟩
  · rw [rodrigues_transpose_mul]
    intro h
    have h11 := congrFun (congrFun h 1) 1
    rw [Matrix.add_apply, Matrix.smul_apply, Spin_sq_apply, hx, Eye3_11] at h11
    norm_num at h11
  · rw [rodrigues_det, hx]
    norm_num

/-- C5: at `v = (0,0,0)` the code returns the `a` family `[0, 1, 1/2, 1/6]`:
`a[0]` is `0`, not `1`. -/
theorem GibSO3_zero_a (a0 : Coef ℝ) :
    GibSO3 Libm.real ![0, 0, 0] (some a0) none none
      = some ⟨some ![0, 1, 1 / 2, 1 / 6], none, none⟩ := by
  simp [GibSO3, dot]
  funext i
  fin_cases i <;> simp [Function.update]

/-- C6: at `v = (1/10000, 0, 0)` (so `x = v·v = 1e-8`) the code returns
`a[3] = 1/6 − x/(1/120 − x/(1/5040 − x/362880))
= 8945503198750009/53673407992500000`, which is not the truncated series
`1/6 − x/120 + x²/5040 − x³/362880`. -/
theorem GibSO3_small_a3_value (a0 : Coef ℝ) :
    ((GibSO3 Libm.real ![1 / 10000, 0, 0] (some a0) none none).bind GibOut.a).map (fun a => a 3)
        = some (8945503198750009 / 53673407992500000) ∧
      (8945503198750009 / 53673407992500000 : ℝ) ≠
        1 / 6 - (1 / 10 ^ 8) / 120 + (1 / 10 ^ 8) ^ 2 / 5040 - (1 / 10 ^ 8) ^ 3 / 362880 := by
  constructor
  · simp only [GibSO3, dot]
    rw [if_pos (by norm_num)]
    simp [Function.update]
    norm_num
  · norm_num

/-- C7: in the small-angle branch a call that requests `c` with a null `b`
dereferences the null pointer, whatever `a` is. -/
theorem GibSO3_small_c_without_b {K : Type} [LinearOrderedField K] (m : Libm K) (v : Vector3D K)
    (a : Option (Coef K)) (c0 : Coef K) (h : dot v v ≤ 1 / 10000000) :
    GibSO3 m v a none (some c0) = none := by
  simp only [GibSO3]
  rw [if_pos h]
  simp

/-- C7, at a concrete call: `v = (0,0,0)`, `a` and `c` requested, `b` null. -/
theorem GibSO3_small_c_without_b_witness :
    dot (![0, 0, 0] : Vector3D ℝ) ![0, 0, 0] ≤ 1 / 10000000 ∧
      GibSO3 Libm.real ![0, 0, 0] (some localCoef) none (some localCoef) = none :=
  ⟨by norm_num [dot], GibSO3_small_c_without_b _ _ _ _ (by norm_num [dot])⟩

/-! ## Tangent map -/

/-- C8: at `v = (3/10000, 0, 0)` (so `1e-8 ≤ v·v = 9e-8 ≤ 1e-7`) `TanSO3` takes
its general branch and `dExpSO3` its series branch, and their `(1,1)` entries
differ by more than `1e-12`. -/
theorem TanSO3_dExpSO3_disagree :
    ∃ T, dExpSO3 Libm.real ![3 / 10000, 0, 0] = some T ∧
      TanSO3 Libm.real ![3 / 10000, 0, 0] 0 0 = 1 ∧
      1 / 10 ^ 12 < |TanSO3 Libm.real ![3 / 10000, 0, 0] 0 0 - T 0 0| := by
  have hT : TanSO3 Libm.real ![3 / 10000, 0, 0] 0 0 = 1 := by
    simp only [TanSO3, dot]
    rw [if_neg (by norm_num)]
    simp
    ring
  refine ⟨_, dExpSO3_small _ _ (by norm_num [dot]), hT, ?_⟩
  rw [hT]
  simp [dot, Eye3, bun, Spin, Matrix3D.ofColumns]
  norm_num [abs_of_pos]

/-! ## Inverse tangent map -/

lemma dExpInvSO3_nowrap (v : Vector3D ℝ) (h : norm Libm.real v ≤ Real.pi / (101 / 100)) :
    dExpInvSO3 Libm.real v = Eye3 - (1 / 2 : ℝ) • Spin v
      + (if 0 < norm Libm.real v then
          (1 - (1 / 2) * norm Libm.real v * cot Libm.real ((1 / 2) * norm Libm.real v))
            / (norm Libm.real v * norm Libm.real v)
        else 0) • Spin v * Spin v := by
  have h0 : 0 ≤ norm Libm.real v := Real.sqrt_nonneg _
  have h' : ¬ |norm Libm.real v| > Libm.real.pi / (101 / 100) := by
    rw [abs_of_nonneg h0]
    exact not_lt.mpr h
  simp only [dExpInvSO3]
  rw [if_neg h']
  by_cases hp : 0 < norm Libm.real v
  · rw [if_pos hp, if_pos (by simpa using hp)]
  · have hz : norm Libm.real v = 0 := le_antisymm (not_lt.mp hp) h0
    rw [if_neg hp, if_neg (by simpa using hp), hz]
    simp

/-- Near the origin the closed form of `η` stays within `1e-4` of `1/12`. -/
lemma eta_near_twelfth (h : ℝ) (h0 : 0 < h) (h1 : h ≤ 1 / 5000) :
    |(1 - h * (Real.cos h / Real.sin h)) / (2 * h * (2 * h)) - 1 / 12| ≤ 1 / 10000 := by
  have habs : |h| ≤ 1 := by rw [abs_of_pos h0]; linarith
  have hs := Real.sin_bound habs
  have hc := Real.cos_bound habs
  rw [abs_of_pos h0] at hs hc
  obtain ⟨hs1, hs2⟩ := abs_le.mp hs
  obtain ⟨hc1, hc2⟩ := abs_le.mp hc
  have hh2 : 0 ≤ h ^ 2 := by positivity
  have hh3 : 0 ≤ h ^ 3 := by positivity
  have p4 : h ^ 4 ≤ h ^ 3 * (1 / 5000) := by
    have : h ^ 4 = h ^ 3 * h := by ring
    rw [this]; exact mul_le_mul_of_nonneg_left h1 hh3
  have p5 : h ^ 5 ≤ h ^ 3 * (1 / 5000) := by
    have : h ^ 5 = h ^ 4 * h := by ring
    have h4 : 0 ≤ h ^ 4 := by positivity
    nlinarith
  have p6 : h ^ 6 ≤ h ^ 3 * (1 / 5000) := by
    have : h ^ 6 = h ^ 5 * h := by ring
    have h5 : 0 ≤ h ^ 5 := by positivity
    nlinarith
  have spos : 0 < Real.sin h := Real.sin_pos_of_pos_of_lt_pi h0 (by linarith [Real.pi_gt_three])
  -- products of the remainders with powers of `h`
  have e1 : h * (Real.cos h - (1 - h ^ 2 / 2)) ≤ h * (h ^ 4 * (5 / 96)) :=
    mul_le_mul_of_nonneg_left hc2 h0.le
  have e2 : h * (-(h ^ 4 * (5 / 96))) ≤ h * (Real.cos h - (1 - h ^ 2 / 2)) :=
    mul_le_mul_of_nonneg_left hc1 h0.le
  have e3 : h ^ 2 * (Real.sin h - (h - h ^ 3 / 6)) ≤ h ^ 2 * (h ^ 4 * (5 / 96)) :=
    mul_le_mul_of_nonneg_left hs2 hh2
  have e4 : h ^ 2 * (-(h ^ 4 * (5 / 96))) ≤ h ^ 2 * (Real.sin h - (h - h ^ 3 / 6)) :=
    mul_le_mul_of_nonneg_left hs1 hh2
  have key : (1 - h * (Real.cos h / Real.sin h)) / (2 * h * (2 * h)) - 1 / 12
      = (12 * (Real.sin h - h * Real.cos h) - 4 * h ^ 2 * Real.sin h)
          / (48 * h ^ 2 * Real.sin h) := by
    field_simp
    ring
  have hden : 0 < 48 * h ^ 2 * Real.sin h := by positivity
  rw [key, abs_le, le_div_iff₀ hden, div_le_iff₀ hden]
  constructor <;> nlinarith

/-- The quotient in the series of `a[3]` as the source writes it. -/
lemma slip_quotient_bound (x : ℝ) (hx0 : 0 ≤ x) (hx1 : x ≤ 1 / 10000000) :
    0 ≤ x / (1 / 120 - x / (1 / 5040 - x / 362880)) ∧
      x / (1 / 120 - x / (1 / 5040 - x / 362880)) ≤ 130 * x := by
  have hin : 1 / 5041 ≤ 1 / 5040 - x / 362880 := by linarith
  have hin0 : (0 : ℝ) < 1 / 5040 - x / 362880 := lt_of_lt_of_le (by norm_num) hin
  have hq : x / (1 / 5040 - x / 362880) ≤ 5041 * x := by
    rw [div_le_iff₀ hin0]
    nlinarith
  have hD : 1 / 130 ≤ 1 / 120 - x / (1 / 5040 - x / 362880) := by linarith
  have hD0 : (0 : ℝ) < 1 / 120 - x / (1 / 5040 - x / 362880) := lt_of_lt_of_le (by norm_num) hD
  refine ⟨div_nonneg hx0 hD0.le, ?_⟩
  rw [div_le_iff₀ hD0]
  nlinarith

lemma small_branch_coefficients (x y eta : ℝ) (hx0 : 0 ≤ x) (hx1 : x ≤ 1 / 10000000)
    (hy0 : 0 ≤ y) (hy1 : y ≤ 130 * x) (heta : |eta - 1 / 12| ≤ 1 / 10000) :
    |(1 - x * (1 / 6 - x * (1 / 120 - x / 5040))) + (1 / 6 - y) * x - 1| ≤ 2 / 10 ^ 12 ∧
    |(1 / 2 - x * (1 / 24 - x * (1 / 720 - x / 40320)))
        - (1 - x * (1 / 6 - x * (1 / 120 - x / 5040))) / 2
        - eta * (1 / 2 - x * (1 / 24 - x * (1 / 720 - x / 40320))) * x| ≤ 2 / 10 ^ 8 ∧
    |(1 / 6 - y) - (1 / 2 - x * (1 / 24 - x * (1 / 720 - x / 40320))) / 2
        + eta * (1 - x * (1 / 6 - x * (1 / 120 - x / 5040)))| ≤ 2 / 10 ^ 4 := by
  obtain ⟨he1, he2⟩ := abs_le.mp heta
  have hxx : x * x ≤ 1 / 10000000 * x := mul_le_mul_of_nonneg_right hx1 hx0
  have hxx0 : 0 ≤ x * x := mul_nonneg hx0 hx0
  have hxxx : x * x * x ≤ 1 / 10000000 * (x * x) := by nlinarith
  have hxxx0 : 0 ≤ x * x * x := mul_nonneg hxx0 hx0
  have hyx : y * x ≤ 130 * x * x := mul_le_mul_of_nonneg_right hy1 hx0
  have hyx0 : 0 ≤ y * x := mul_nonneg hy0 hx0
  have hex1 : eta * x ≤ (1 / 12 + 1 / 10000) * x := mul_le_mul_of_nonneg_right (by linarith) hx0
  have hex2 : (1 / 12 - 1 / 10000) * x ≤ eta * x := mul_le_mul_of_nonneg_right (by linarith) hx0
  have hexx1 : eta * (x * x) ≤ (1 / 12 + 1 / 10000) * (x * x) :=
    mul_le_mul_of_nonneg_right (by linarith) hxx0
  have hexx2 : (1 / 12 - 1 / 10000) * (x * x) ≤ eta * (x * x) :=
    mul_le_mul_of_nonneg_right (by linarith) hxx0
  have hexxx1 : eta * (x * x * x) ≤ (1 / 12 + 1 / 10000) * (x * x * x) :=
    mul_le_mul_of_nonneg_right (by linarith) hxxx0
  have hexxx2 : (1 / 12 - 1 / 10000) * (x * x * x) ≤ eta * (x * x * x) :=
    mul_le_mul_of_nonneg_right (by linarith) hxxx0
  have hx4 : 0 ≤ x * x * x * x := mul_nonneg hxxx0 hx0
  have hx4' : x * x * x * x ≤ 1 / 10000000 * (x * x * x) := by nlinarith
  have hex41 : eta * (x * x * x * x) ≤ (1 / 12 + 1 / 10000) * (x * x * x * x) :=
    mul_le_mul_of_nonneg_right (by linarith) hx4
  have hex42 : (1 / 12 - 1 / 10000) * (x * x * x * x) ≤ eta * (x * x * x * x) :=
    mul_le_mul_of_nonneg_right (by linarith) hx4
  refine ⟨?_, ?_, ?_⟩
  · rw [abs_le]; constructor <;> linarith
  · rw [abs_le]; constructor <;> linarith
  · rw [abs_le]; constructor <;> linarith

lemma abs_Spin_le (v : Vector3D ℝ) (b : ℝ) (hb : 0 ≤ b) (h : dot v v ≤ b ^ 2) (i j : Fin 3) :
    |Spin v i j| ≤ b := by
  have h0 := mul_self_nonneg (v 0)
  have h1 := mul_self_nonneg (v 1)
  have h2 := mul_self_nonneg (v 2)
  unfold dot at h
  have hk : ∀ k : Fin 3, |v k| ≤ b := by
    intro k
    apply abs_le_of_sq_le_sq _ hb
    fin_cases k <;> simp <;> nlinarith
  fin_cases i <;> fin_cases j <;>
    simp [Spin_00, Spin_01, Spin_02, Spin_10, Spin_11, Spin_12, Spin_20, Spin_21, Spin_22, hb, hk]

/-- In the general branch the three coefficients of `H·T − I` vanish. -/
lemma general_branch_coefficients (t : ℝ) (ht : 0 < t) (hpi : t < 2 * Real.pi) :
    Real.sin t / t + (t - Real.sin t) / (t * (t * t)) * (t * t) - 1 = 0 ∧
    (1 - Real.cos t) / (t * t) - Real.sin t / t / 2
      - (1 - (1 / 2) * t * (Real.cos ((1 / 2) * t) / Real.sin ((1 / 2) * t))) / (t * t)
          * ((1 - Real.cos t) / (t * t)) * (t * t) = 0 ∧
    (t - Real.sin t) / (t * (t * t)) - (1 - Real.cos t) / (t * t) / 2
      + (1 - (1 / 2) * t * (Real.cos ((1 / 2) * t) / Real.sin ((1 / 2) * t))) / (t * t)
          * (Real.sin t / t) = 0 := by
  have hsh : Real.sin ((1 / 2) * t) ≠ 0 :=
    (Real.sin_pos_of_pos_of_lt_pi (by linarith) (by linarith)).ne'
  have hs : Real.sin t = 2 * Real.sin ((1 / 2) * t) * Real.cos ((1 / 2) * t) := by
    rw [← Real.sin_two_mul]; congr 1; ring
  have htrig := Real.sin_sq_add_cos_sq ((1 / 2) * t)
  have hc : Real.cos t = 1 - 2 * Real.sin ((1 / 2) * t) ^ 2 := by
    have h2 : Real.cos (2 * ((1 / 2) * t)) = 2 * Real.cos ((1 / 2) * t) ^ 2 - 1 :=
      Real.cos_two_mul _
    rw [show 2 * ((1 / 2) * t) = t by ring] at h2
    linarith
  have ht0 : t ≠ 0 := ht.ne'
  rw [hs, hc]
  generalize Real.sin ((1 / 2) * t) = sh at *
  generalize Real.cos ((1 / 2) * t) = ch at *
  refine ⟨?_, ?_, ?_⟩
  · field_simp
    ring
  · field_simp
    ring
  · field_simp
    linear_combination (-4 * t ^ 6 * sh) * htrig

lemma abs_three_terms (E1 E2 E3 o s q b1 b2 b3 c2 c3 : ℝ) (h1 : |E1| ≤ b1) (ho : |o| ≤ 1)
    (h2 : |E2| ≤ b2) (hs : |s| ≤ c2) (h3 : |E3| ≤ b3) (hq : |q| ≤ c3) :
    |E1 * o + E2 * s + E3 * q| ≤ b1 + b2 * c2 + b3 * c3 := by
  have t1 : |E1 * o| ≤ b1 := by
    rw [abs_mul]
    calc |E1| * |o| ≤ b1 * 1 := mul_le_mul h1 ho (abs_nonneg _) ((abs_nonneg _).trans h1)
      _ = b1 := mul_one _
  have t2 : |E2 * s| ≤ b2 * c2 := by
    rw [abs_mul]
    exact mul_le_mul h2 hs (abs_nonneg _) ((abs_nonneg _).trans h2)
  have t3 : |E3 * q| ≤ b3 * c3 := by
    rw [abs_mul]
    exact mul_le_mul h3 hq (abs_nonneg _) ((abs_nonneg _).trans h3)
  calc |E1 * o + E2 * s + E3 * q| ≤ |E1 * o + E2 * s| + |E3 * q| := abs_add _ _
    _ ≤ |E1 * o| + |E2 * s| + |E3 * q| := by linarith [abs_add (E1 * o) (E2 * s)]
    _ ≤ b1 + b2 * c2 + b3 * c3 := by linarith

lemma abs_one_apply_le (i j : Fin 3) : |(1 : Matrix3D ℝ) i j| ≤ 1 := by
  rw [Matrix.one_apply]
  split_ifs <;> simp

/-- C9: with the convention `M(v) = dExpSO3(v)`, for every `v` with
`‖v‖ ≤ π/1.01` every entry of `dExpInvSO3(v)·dExpSO3(v) − I` has magnitude at
most `1e-10`. -/
theorem dExpInvSO3_mul_dExpSO3 (v : Vector3D ℝ)
    (h : norm Libm.real v ≤ Real.pi / (101 / 100)) :
    ∃ T, dExpSO3 Libm.real v = some T ∧
      ∀ i j, |(dExpInvSO3 Libm.real v * T - 1) i j| ≤ 1 / 10 ^ 10 := by
  rw [dExpInvSO3_nowrap v h]
  have hx0 : 0 ≤ dot v v := dot_self_nonneg v
  by_cases hx : dot v v ≤ 1 / 10000000
  · refine ⟨_, dExpSO3_small _ _ hx, fun i j => ?_⟩
    rw [inv_tangent_mul]
    simp only [Matrix.add_apply, Matrix.smul_apply, smul_eq_mul]
    have hS : |Spin v i j| ≤ 1 / 2500 := abs_Spin_le v _ (by norm_num) (hx.trans (by norm_num)) i j
    have hS2 : |(Spin v * Spin v) i j| ≤ 1 / 10000000 := (abs_Spin_sq_le v i j).trans hx
    rcases hx0.eq_or_lt with hz | hpos
    · have hn : norm Libm.real v = 0 := by
        simp only [norm, Libm.real]
        rw [← hz, Real.sqrt_zero]
      have hS2' : (Spin v * Spin v) i j = 0 := by
        have := abs_Spin_sq_le v i j
        rw [← hz] at this
        exact abs_nonpos_iff.mp this
      rw [hn, if_neg (lt_irrefl _), hS2', ← hz]
      norm_num
    · have hn : 0 < norm Libm.real v := Real.sqrt_pos.mpr hpos
      have hnsq : norm Libm.real v * norm Libm.real v = dot v v := Real.mul_self_sqrt hx0
      have hn1 : (1 / 2) * norm Libm.real v ≤ 1 / 5000 := by
        have : norm Libm.real v ≤ 1 / 2500 := by
          apply abs_le_of_sq_le_sq' _ (by norm_num) |>.2
          rw [sq, hnsq]
          exact hx.trans (by norm_num)
        linarith
      have heta := eta_near_twelfth ((1 / 2) * norm Libm.real v) (by linarith) hn1
      rw [show 2 * ((1 / 2) * norm Libm.real v) = norm Libm.real v by ring] at heta
      rw [if_pos hn]
      obtain ⟨hy0, hy1⟩ := slip_quotient_bound (dot v v) hx0 hx
      obtain ⟨c1, c2, c3⟩ := small_branch_coefficients (dot v v) _ _ hx0 hx hy0 hy1 heta
      refine (abs_three_terms _ _ _ _ _ _ _ _ _ _ _ c1 (abs_one_apply_le i j) c2 hS c3 hS2).trans ?_
      norm_num
  · refine ⟨_, dExpSO3_general _ _ hx, fun i j => ?_⟩
    have hpos : 0 < dot v v := lt_trans (by norm_num) (not_le.mp hx)
    have hn : 0 < norm Libm.real v := Real.sqrt_pos.mpr hpos
    have hnsq : norm Libm.real v * norm Libm.real v = dot v v := Real.mul_self_sqrt hx0
    have hpi : norm Libm.real v < 2 * Real.pi := by
      have : Real.pi / (101 / 100) ≤ Real.pi := by
        rw [div_le_iff₀ (by norm_num)]
        nlinarith [Real.pi_pos]
      linarith [Real.pi_pos]
    obtain ⟨c1, c2, c3⟩ := general_branch_coefficients (norm Libm.real v) hn hpi
    rw [inv_tangent_mul, if_pos hn, ← hnsq]
    simp only [cot, Libm.real] at c1 c2 c3 ⊢
    rw [c1, c2, c3]
    simp

/-- C9 at `v = (1, 0, 0)`, a rotation vector of the general branch. -/
theorem dExpInvSO3_mul_dExpSO3_witness :
    norm Libm.real ![1, 0, 0] ≤ Real.pi / (101 / 100) ∧
      ∃ T, dExpSO3 Libm.real ![1, 0, 0] = some T ∧
        ∀ i j, |(dExpInvSO3 Libm.real ![1, 0, 0] * T - 1) i j| ≤ 1 / 10 ^ 10 :=
  have h : norm Libm.real ![1, 0, 0] ≤ Real.pi / (101 / 100) := by
    have h1 : norm Libm.real ![1, 0, 0] = 1 := by
      simp [norm, Libm.real, dot]
    rw [h1, le_div_iff₀ (by norm_num)]
    linarith [Real.pi_gt_three]
  ⟨h, dExpInvSO3_mul_dExpSO3 _ h⟩


/-! ## The tangent map as differential of the exponential map -/

lemma hasDerivAt_dot (v w : Vector3D ℝ) :
    HasDerivAt (fun e : ℝ => dot (v + e • w) (v + e • w)) (2 * dot v w) 0 := by
  have h : (fun e : ℝ => dot (v + e • w) (v + e • w))
      = fun e => dot v v + 2 * dot v w * e + dot w w * e ^ 2 := by
    funext e
    exact dot_add_smul v w e
  rw [h]
  have h1 : HasDerivAt (fun e : ℝ => dot v v + 2 * dot v w * e) (2 * dot v w) 0 := by
    simpa using ((hasDerivAt_id (0 : ℝ)).const_mul (2 * dot v w)).const_add (dot v v)
  have h2 : HasDerivAt (fun e : ℝ => dot w w * e ^ 2) 0 0 := by
    simpa using (hasDerivAt_pow 2 (0 : ℝ)).const_mul (dot w w)
  simpa using h1.add h2

lemma hasDerivAt_Spin (v w : Vector3D ℝ) (i j : Fin 3) :
    HasDerivAt (fun e : ℝ => Spin (v + e • w) i j) (Spin w i j) 0 := by
  have h : (fun e : ℝ => Spin (v + e • w) i j) = fun e => Spin v i j + e * Spin w i j := by
    funext e
    rw [Spin_add_smul]
    simp
  rw [h]
  simpa using ((hasDerivAt_id (0 : ℝ)).mul_const (Spin w i j)).const_add (Spin v i j)

lemma hasDerivAt_Spin_sq (v w : Vector3D ℝ) (i j : Fin 3) :
    HasDerivAt (fun e : ℝ => (Spin (v + e • w) * Spin (v + e • w)) i j)
      ((Spin v * Spin w + Spin w * Spin v) i j) 0 := by
  simp only [Matrix.mul_apply, Fin.sum_univ_three, Matrix.add_apply]
  have hk := fun k => (hasDerivAt_Spin v w i k).mul (hasDerivAt_Spin v w k j)
  have h := ((hk 0).add (hk 1)).add (hk 2)
  simp only [zero_smul, add_zero] at h
  convert h using 1
  ring

/-- The derivatives of the coefficients `a[1]`, `a[2]` of the general branch
along `ε ↦ v + ε·w`. -/
lemma hasDerivAt_coefficients (v w : Vector3D ℝ) (h : 0 < dot v v) :
    HasDerivAt (fun e : ℝ => Real.sin (Real.sqrt (dot (v + e • w) (v + e • w)))
        / Real.sqrt (dot (v + e • w) (v + e • w)))
      ((Real.cos (Real.sqrt (dot v v)) * (2 * dot v w / (2 * Real.sqrt (dot v v)))
          * Real.sqrt (dot v v)
        - Real.sin (Real.sqrt (dot v v)) * (2 * dot v w / (2 * Real.sqrt (dot v v))))
        / Real.sqrt (dot v v) ^ 2) 0 ∧
    HasDerivAt (fun e : ℝ => (1 - Real.cos (Real.sqrt (dot (v + e • w) (v + e • w))))
        / dot (v + e • w) (v + e • w))
      ((Real.sin (Real.sqrt (dot v v)) * (2 * dot v w / (2 * Real.sqrt (dot v v))) * dot v v
        - (1 - Real.cos (Real.sqrt (dot v v))) * (2 * dot v w)) / dot v v ^ 2) 0 := by
  have hx := hasDerivAt_dot v w
  have hx0 : dot (v + (0 : ℝ) • w) (v + (0 : ℝ) • w) = dot v v := by simp
  have hne : dot (v + (0 : ℝ) • w) (v + (0 : ℝ) • w) ≠ 0 := by rw [hx0]; exact h.ne'
  have ht := hx.sqrt hne
  have hsne : Real.sqrt (dot (v + (0 : ℝ) • w) (v + (0 : ℝ) • w)) ≠ 0 := by
    rw [hx0]; exact (Real.sqrt_pos.mpr h).ne'
  constructor
  · have := (ht.sin).div ht hsne
    simp only [hx0] at this
    exact this
  · have := ((ht.cos).const_sub 1).div hx hne
    simp only [hx0] at this
    convert this using 1
    ring


/-- In the general branch the coefficients of `exp_differential_identity` vanish. -/
lemma exp_differential_scalars (x d : ℝ) (hx : 0 < x) :
    (Real.sin (Real.sqrt x) / Real.sqrt x) ^ 2 + ((1 - Real.cos (Real.sqrt x)) / x) ^ 2 * x
        - 2 * ((1 - Real.cos (Real.sqrt x)) / x) = 0 ∧
    d * ((Real.sqrt x - Real.sin (Real.sqrt x)) / (Real.sqrt x * x)
          - Real.sin (Real.sqrt x) / Real.sqrt x * ((1 - Real.cos (Real.sqrt x)) / x)
          - (1 - Real.cos (Real.sqrt x)) / x
              * ((Real.sqrt x - Real.sin (Real.sqrt x)) / (Real.sqrt x * x)) * x)
        - (Real.cos (Real.sqrt x) * (2 * d / (2 * Real.sqrt x)) * Real.sqrt x
            - Real.sin (Real.sqrt x) * (2 * d / (2 * Real.sqrt x))) / Real.sqrt x ^ 2 = 0 ∧
    d * (Real.sin (Real.sqrt x) / Real.sqrt x
            * ((Real.sqrt x - Real.sin (Real.sqrt x)) / (Real.sqrt x * x))
          - ((1 - Real.cos (Real.sqrt x)) / x) ^ 2)
        - (Real.sin (Real.sqrt x) * (2 * d / (2 * Real.sqrt x)) * x
            - (1 - Real.cos (Real.sqrt x)) * (2 * d)) / x ^ 2 = 0 := by
  have ht : Real.sqrt x ≠ 0 := (Real.sqrt_pos.mpr hx).ne'
  have hsq : x = Real.sqrt x ^ 2 := (Real.sq_sqrt hx.le).symm
  have htrig := Real.sin_sq_add_cos_sq (Real.sqrt x)
  generalize Real.sqrt x = t at *
  subst hsq
  generalize Real.sin t = s at *
  generalize Real.cos t = c at *
  refine ⟨?_, ?_, ?_⟩
  · field_simp
    linear_combination (t ^ 6) * htrig
  · field_simp
    ring
  · field_simp
    linear_combination (-2 * d * t ^ 9) * htrig

/-- C10: for every `v` with `v·v > 1e-7` and every direction `w`, `ExpSO3` returns
a matrix `R ε` at every point `v + ε·w`, and each entry of `ε ↦ R ε` has at `ε = 0`
the derivative given by the same entry of `Spin(dExpSO3(v)·w)·ExpSO3(v)`. -/
theorem dExpSO3_is_differential (v w : Vector3D ℝ) (h : 1 / 10000000 < dot v v) :
    ∃ R : ℝ → Matrix3D ℝ, (∀ e : ℝ, ExpSO3 Libm.real (v + e • w) = some (R e)) ∧
      ∃ T, dExpSO3 Libm.real v = some T ∧
        ∀ i j, HasDerivAt (fun e => R e i j) ((Spin (Matrix.mulVec T w) * R 0) i j) 0 := by
  have hpos : 0 < dot v v := lt_trans (by norm_num) h
  refine ⟨fun e => (ExpSO3 Libm.real (v + e • w)).getD 0, ?_, ?_⟩
  · intro e
    by_cases he : dot (v + e • w) (v + e • w) ≤ 1 / 10000000
    · simp only [ExpSO3_small _ _ he, Option.getD_some]
    · simp only [ExpSO3_general _ _ he, Option.getD_some]
  refine ⟨_, dExpSO3_general _ _ (not_le.mpr h), fun i j => ?_⟩
  -- near `ε = 0` the line stays in the general branch
  have hev : ∀ᶠ e : ℝ in nhds 0, 1 / 10000000 < dot (v + e • w) (v + e • w) :=
    (hasDerivAt_dot v w).continuousAt.eventually
      (lt_mem_nhds (show (1 / 10000000 : ℝ) < (fun e : ℝ => dot (v + e • w) (v + e • w)) 0 by
        simpa using h))
  obtain ⟨h1, h2⟩ := hasDerivAt_coefficients v w hpos
  have hG := ((h1.mul (hasDerivAt_Spin v w i j)).add
    (h2.mul (hasDerivAt_Spin_sq v w i j))).const_add (Eye3 i j : ℝ)
  obtain ⟨c1, c2, c3⟩ := exp_differential_scalars (dot v v) (dot v w) hpos
  have key := congrFun (congrFun (exp_differential_identity v w
    (Real.sin (Real.sqrt (dot v v)) / Real.sqrt (dot v v))
    ((1 - Real.cos (Real.sqrt (dot v v))) / dot v v)
    ((Real.sqrt (dot v v) - Real.sin (Real.sqrt (dot v v))) / (Real.sqrt (dot v v) * dot v v))
    ((Real.cos (Real.sqrt (dot v v)) * (2 * dot v w / (2 * Real.sqrt (dot v v)))
          * Real.sqrt (dot v v)
        - Real.sin (Real.sqrt (dot v v)) * (2 * dot v w / (2 * Real.sqrt (dot v v))))
        / Real.sqrt (dot v v) ^ 2)
    ((Real.sin (Real.sqrt (dot v v)) * (2 * dot v w / (2 * Real.sqrt (dot v v))) * dot v v
        - (1 - Real.cos (Real.sqrt (dot v v))) * (2 * dot v w)) / dot v v ^ 2)) i) j
  rw [c1, c2, c3] at key
  simp only [zero_smul, add_zero, Matrix.zero_apply, Matrix.sub_apply, Matrix.add_apply,
    Matrix.smul_apply, smul_eq_mul] at key
  have hfun : (fun e : ℝ => (ExpSO3 Libm.real (v + e • w)).getD 0 i j) =ᶠ[nhds 0]
      fun e : ℝ => Eye3 i j
        + (Real.sin (Real.sqrt (dot (v + e • w) (v + e • w)))
              / Real.sqrt (dot (v + e • w) (v + e • w)) * Spin (v + e • w) i j
          + (1 - Real.cos (Real.sqrt (dot (v + e • w) (v + e • w))))
              / dot (v + e • w) (v + e • w) * (Spin (v + e • w) * Spin (v + e • w)) i j) := by
    filter_upwards [hev] with e he
    simp only [ExpSO3_general _ _ (not_le.mpr he), Option.getD_some, norm, Libm.real,
      Matrix.add_apply, Matrix.smul_apply, smul_eq_mul, Matrix.smul_mul]
    ring
  refine (hG.congr_of_eventuallyEq hfun).congr_deriv ?_
  simp only [zero_smul, add_zero, ExpSO3_general _ _ (not_le.mpr h), Option.getD_some, norm,
    Libm.real, Matrix.add_apply]
  linarith [key]

/-- C10 at `v = (1, 0, 0)` in the direction `w = (0, 1, 0)`. -/
theorem dExpSO3_is_differential_witness :
    1 / 10000000 < dot (![1, 0, 0] : Vector3D ℝ) ![1, 0, 0] ∧
      ∃ R : ℝ → Matrix3D ℝ,
        (∀ e : ℝ, ExpSO3 Libm.real (![1, 0, 0] + e • ![0, 1, 0]) = some (R e)) ∧
        ∃ T, dExpSO3 Libm.real ![1, 0, 0] = some T ∧
          ∀ i j, HasDerivAt (fun e => R e i j)
            ((Spin (Matrix.mulVec T ![0, 1, 0]) * R 0) i j) 0 :=
  ⟨by norm_num [dot], dExpSO3_is_differential _ _ (by norm_num [dot])⟩

/-! ## The wrapping step of `dExpInvSO3` and `ddExpInvSO3` -/

section
variable {K : Type} [LinearOrderedField K]

/-- The result of `dExpInvSO3` in terms of `wrapped` and `dExpInvSO3_eta`: the
`Spin` terms are those of the argument, the angle of `eta` is that of the
wrapped vector. -/
lemma dExpInvSO3_eq (m : Libm K) (v : Vector3D K) :
    dExpInvSO3 m v = Eye3 - (1 / 2 : K) • Spin v
      + dExpInvSO3_eta m (if |norm m v| > m.pi / (101 / 100)
          then norm m (wrapped m (norm m v) v) else norm m v) • Spin v * Spin v := by
  unfold dExpInvSO3 dExpInvSO3_eta wrapped
  by_cases h : |norm m v| > m.pi / (101 / 100)
  · simp only [if_pos h]
  · simp only [if_neg h]

/-- The result of `ddExpInvSO3` in terms of `wrapped`. -/
lemma ddExpInvSO3_wrap (m : Libm K) (dLogSO3 : Vector3D K → Matrix3D K) (th v : Vector3D K)
    (h : |norm m th| > m.pi / (101 / 100)) :
    ddExpInvSO3 m dLogSO3 th v =
      (-(1 / 2 : K) • Spin (wrapped m (norm m th) v)
        + (ddExpInvSO3_coef m (norm m (wrapped m (norm m th) v))).1
            • (dot th (wrapped m (norm m th) v) • Eye3 + bun th (wrapped m (norm m th) v)
                - (2 : K) • bun (wrapped m (norm m th) v) th)
        + (ddExpInvSO3_coef m (norm m (wrapped m (norm m th) v))).2
            • (Spin th * Spin th) * bun (wrapped m (norm m th) v) th) * dLogSO3 th := by
  simp only [ddExpInvSO3, if_pos h]
  rfl
end

lemma norm_four : norm Libm.real ![4, 0, 0] = 4 := by
  have h : dot (![4, 0, 0] : Vector3D ℝ) ![4, 0, 0] = 4 ^ 2 := by norm_num [dot]
  simp only [norm, Libm.real, h]
  exact Real.sqrt_sq (by norm_num)

lemma floor_four_add_pi : (⌊(4 : ℝ) + Real.pi⌋ : ℝ) = 7 := by
  have h : ⌊(4 : ℝ) + Real.pi⌋ = 7 := by
    rw [Int.floor_eq_iff]
    constructor
    · push_cast; linarith [Real.pi_gt_three]
    · push_cast; linarith [Real.pi_lt_d2]
  rw [h]
  norm_num

lemma four_gt_wrap_threshold : |(4 : ℝ)| > Real.pi / (101 / 100) := by
  rw [abs_of_pos (by norm_num), gt_iff_lt, div_lt_iff₀ (by norm_num)]
  linarith [Real.pi_lt_d2]

lemma wrapped_four (v : Vector3D ℝ) :
    wrapped Libm.real (norm Libm.real ![4, 0, 0]) v = fun i => -(3 / 4) * v i := by
  funext i
  rw [norm_four]
  simp only [wrapped, Libm.real, floor_four_add_pi]
  ring


lemma wrapped_four_e1 :
    wrapped Libm.real (norm Libm.real ![4, 0, 0]) ![4, 0, 0] = ![-3, 0, 0] := by
  rw [wrapped_four]
  funext i
  fin_cases i <;> norm_num

lemma norm_neg_three : norm Libm.real ![-3, 0, 0] = 3 := by
  have h : dot (![-3, 0, 0] : Vector3D ℝ) ![-3, 0, 0] = 3 ^ 2 := by norm_num [dot]
  simp only [norm, Libm.real, h]
  exact Real.sqrt_sq (by norm_num)

/-- The entry `(3,2)` of `I − ½·Spin(u) + η·Spin(u)²` for `u` along the first axis. -/
lemma inv_tangent_entry_32 (t eta : ℝ) :
    (Eye3 - (1 / 2 : ℝ) • Spin ![t, 0, 0] + eta • Spin ![t, 0, 0] * Spin ![t, 0, 0]
        : Matrix3D ℝ) 2 1
      = -(1 / 2) * t := by
  rw [Matrix.smul_mul]
  simp only [Matrix.add_apply, Matrix.sub_apply, Matrix.smul_apply, smul_eq_mul, Spin_sq_apply,
    Eye3_21, Spin_21]
  norm_num

/-- C11: at `v = (4, 0, 0)`, where `‖v‖ > π/1.01`, the wrapping step replaces `v`
by `w = (−3, 0, 0)` with `‖w‖ = 3`; `dExpInvSO3 v` is
`I − ½·Spin(v) + η(3)·Spin(v)²`, with `Spin` of the original `v`, and is not
`I − ½·Spin(w) + η(3)·Spin(w)²`. -/
theorem dExpInvSO3_wrap_keeps_original_Spin :
    |norm Libm.real ![4, 0, 0]| > Libm.real.pi / (101 / 100) ∧
    wrapped Libm.real (norm Libm.real ![4, 0, 0]) ![4, 0, 0] = ![-3, 0, 0] ∧
    norm Libm.real ![-3, 0, 0] = 3 ∧
    dExpInvSO3 Libm.real ![4, 0, 0]
      = Eye3 - (1 / 2 : ℝ) • Spin ![4, 0, 0]
          + dExpInvSO3_eta Libm.real 3 • Spin ![4, 0, 0] * Spin ![4, 0, 0] ∧
    dExpInvSO3 Libm.real ![4, 0, 0]
      ≠ Eye3 - (1 / 2 : ℝ) • Spin ![-3, 0, 0]
          + dExpInvSO3_eta Libm.real 3 • Spin ![-3, 0, 0] * Spin ![-3, 0, 0] := by
  have hgt : |norm Libm.real ![4, 0, 0]| > Libm.real.pi / (101 / 100) := by
    rw [norm_four]
    exact four_gt_wrap_threshold
  have hval : dExpInvSO3 Libm.real ![4, 0, 0]
      = Eye3 - (1 / 2 : ℝ) • Spin ![4, 0, 0]
          + dExpInvSO3_eta Libm.real 3 • Spin ![4, 0, 0] * Spin ![4, 0, 0] := by
    rw [dExpInvSO3_eq, if_pos hgt, wrapped_four_e1, norm_neg_three]
  refine ⟨hgt, wrapped_four_e1, norm_neg_three, hval, ?_⟩
  rw [hval]
  intro h
  have h32 := congrFun (congrFun h 2) 1
  rw [inv_tangent_entry_32, inv_tangent_entry_32] at h32
  norm_num at h32

/-- The entry `(2,2)` of the Rodrigues form for `u` along the first axis. -/
lemma rodrigues_entry_22 (t a1 a2 : ℝ) :
    (Eye3 + a1 • Spin ![t, 0, 0] + a2 • Spin ![t, 0, 0] * Spin ![t, 0, 0]
        : Matrix3D ℝ) 1 1
      = 1 - a2 * (t * t) := by
  rw [Matrix.smul_mul]
  simp only [Matrix.add_apply, Matrix.smul_apply, smul_eq_mul, Spin_sq_apply,
    Eye3_11, Spin_11, dot]
  norm_num
  ring

/-- C12: at `v = (4, 0, 0)`, where `θ = ‖v‖ = 4 > π/1.01`, the wrapped vector is
`w = (−3, 0, 0)`; there is no integer `k` with `w = v − 2πk·(v/θ)`, and
`ExpSO3 w ≠ ExpSO3 v`. -/
theorem wrapped_not_equivalent :
    |norm Libm.real ![4, 0, 0]| > Libm.real.pi / (101 / 100) ∧
    wrapped Libm.real (norm Libm.real ![4, 0, 0]) ![4, 0, 0] = ![-3, 0, 0] ∧
    (¬ ∃ k : ℤ, (![-3, 0, 0] : Vector3D ℝ)
        = fun i => ![4, 0, 0] i - 2 * Real.pi * k * (![4, 0, 0] i / norm Libm.real ![4, 0, 0])) ∧
    ExpSO3 Libm.real ![-3, 0, 0] ≠ ExpSO3 Libm.real ![4, 0, 0] := by
  have hgt : |norm Libm.real ![4, 0, 0]| > Libm.real.pi / (101 / 100) := by
    rw [norm_four]
    exact four_gt_wrap_threshold
  refine ⟨hgt, wrapped_four_e1, ?_, ?_⟩
  · rintro ⟨k, hk⟩
    have h0 := congrFun hk 0
    rw [norm_four] at h0
    simp only [Matrix.cons_val_zero] at h0
    have h7 : 2 * Real.pi * k = 7 := by linarith
    rcases le_or_lt k 1 with hk1 | hk1
    · have : (k : ℝ) ≤ 1 := by exact_mod_cast hk1
      nlinarith [Real.pi_pos, Real.pi_lt_d2]
    · have : (2 : ℝ) ≤ k := by exact_mod_cast hk1
      nlinarith [Real.pi_pos, Real.pi_gt_three]
  · have h3 : ¬ dot (![-3, 0, 0] : Vector3D ℝ) ![-3, 0, 0] ≤ 1 / 10000000 := by
      norm_num [dot]
    have h4 : ¬ dot (![4, 0, 0] : Vector3D ℝ) ![4, 0, 0] ≤ 1 / 10000000 := by
      norm_num [dot]
    rw [ExpSO3_general _ _ h3, ExpSO3_general _ _ h4, norm_neg_three, norm_four]
    intro h
    have h22 := congrFun (congrFun (Option.some.inj h) 1) 1
    rw [rodrigues_entry_22, rodrigues_entry_22] at h22
    have d3 : dot (![-3, 0, 0] : Vector3D ℝ) ![-3, 0, 0] = 9 := by norm_num [dot]
    have d4 : dot (![4, 0, 0] : Vector3D ℝ) ![4, 0, 0] = 16 := by norm_num [dot]
    simp only [d3, d4, Libm.real] at h22
    have hcos : Real.cos 3 = Real.cos 4 := by
      field_simp at h22
      linarith
    have h1 : Real.cos 3 < Real.cos (2 * Real.pi - 4) :=
      Real.cos_lt_cos_of_nonneg_of_le_pi (by linarith [Real.pi_gt_three])
        (by linarith [Real.pi_gt_three]) (by linarith [Real.pi_lt_d2])
    rw [Real.cos_two_pi_sub] at h1
    linarith

/-! ## Directional derivatives of the tangent map -/

section
variable {K : Type} [LinearOrderedField K]

/-- C14: whatever the inputs, `dTanSO3` with selector `'R'` returns what it
returns with selector `'L'`; and at `v = (0,0,0)`, `p = (1,0,0)` both calls
return one matrix although `2·a₂·Spin(p) − 2·b₂·((v×p)⊗v)`, with `a`, `b` from
`GibSO3(v)`, is not zero. -/
theorem dTanSO3_R_returns_L :
    (∀ (m : Libm K) (nargin : Nat) (abunv : Matrix3D K) (v p : Vector3D K),
      dTanSO3 m nargin abunv v p 'R' = dTanSO3 m nargin abunv v p 'L') ∧
    ∀ (m : Libm K) (abunv : Matrix3D K), ∃ X a b,
      dTanSO3 m 3 abunv ![0, 0, 0] ![1, 0, 0] 'L' = some X ∧
      dTanSO3 m 3 abunv ![0, 0, 0] ![1, 0, 0] 'R' = some X ∧
      GibSO3 m ![0, 0, 0] (some localCoef) (some localCoef) none = some ⟨some a, some b, none⟩ ∧
      (2 * a 2) • Spin (![1, 0, 0] : Vector3D K)
        - (2 * b 2) • bun (cross ![0, 0, 0] ![1, 0, 0]) (![0, 0, 0] : Vector3D K) ≠ 0 := by
  have hRL : ∀ (m : Libm K) (nargin : Nat) (abunv : Matrix3D K) (v p : Vector3D K),
      dTanSO3 m nargin abunv v p 'R' = dTanSO3 m nargin abunv v p 'L' := by
    intro m nargin abunv v p
    simp only [dTanSO3]
    by_cases hn : nargin < 3
    · simp only [if_pos hn]
    · simp only [if_neg hn]
      rfl
  refine ⟨hRL, fun m abunv => ?_⟩
  have hx : dot (![0, 0, 0] : Vector3D K) ![0, 0, 0] ≤ 1 / 10000000 := by
    norm_num [dot]
  have hG : ∃ a b, GibSO3 m ![0, 0, 0] (some localCoef) (some localCoef) none
      = some ⟨some a, some b, none⟩ ∧ a 2 = 1 / 2 := by
    simp only [GibSO3]
    rw [if_pos hx]
    refine ⟨_, _, rfl, ?_⟩
    simp [Function.update, dot]
  obtain ⟨a, b, hab, ha2⟩ := hG
  have hL : ∃ X, dTanSO3 m 3 abunv ![0, 0, 0] ![1, 0, 0] 'L' = some X := by
    simp only [dTanSO3, hab]
    exact ⟨_, rfl⟩
  obtain ⟨X, hX⟩ := hL
  refine ⟨X, a, b, hX, (hRL m 3 abunv _ _).trans hX, hab, ?_⟩
  intro h0
  have h21 := congrFun (congrFun h0 2) 1
  simp only [Matrix.sub_apply, Matrix.smul_apply, smul_eq_mul, Spin_21, bun_apply,
    Matrix.zero_apply, ha2] at h21
  norm_num at h21
end

section
variable {K : Type} [LinearOrderedField K]

/-- The twelve accumulation calls of `ddTanSO3` give a symmetric matrix whatever
the coefficients are. -/
lemma ddTanSO3_assembly_symm (v p q : Vector3D K) (a3 b1 b2 b3 s : K) :
    Matrix.transpose
      (addTensorProduct (addDiagonal (addTensorProduct (addTensorProduct (addTensorProduct
        (addTensorProduct (addDiagonal (addTensorProduct (addTensorProduct (addDiagonal
        (addTensorProduct (addTensorProduct (0 : Matrix3D K) p q a3) q p a3) (b1 * dot p q))
        (cross p q) v b2) v (cross p q) b2) (dot (cross v p) q * b2))
        q v (b3 * dot v p)) v q (b3 * dot v p)) p v (b3 * dot v q)) v p (b3 * dot v q))
        (dot v p * dot v q * b3)) v v s)
    = addTensorProduct (addDiagonal (addTensorProduct (addTensorProduct (addTensorProduct
        (addTensorProduct (addDiagonal (addTensorProduct (addTensorProduct (addDiagonal
        (addTensorProduct (addTensorProduct (0 : Matrix3D K) p q a3) q p a3) (b1 * dot p q))
        (cross p q) v b2) v (cross p q) b2) (dot (cross v p) q * b2))
        q v (b3 * dot v p)) v q (b3 * dot v p)) p v (b3 * dot v q)) v p (b3 * dot v q))
        (dot v p * dot v q * b3)) v v s := by
  ext i j
  fin_cases i <;> fin_cases j <;>
    simp only [Fin.zero_eta, Fin.mk_one, Fin.reduceFinMk, addTensorProduct, addDiagonal,
      Matrix.transpose_apply, Matrix.add_apply, Matrix.smul_apply, Matrix.zero_apply,
      smul_eq_mul, bun_apply,
      Eye3_00, Eye3_01, Eye3_02, Eye3_10, Eye3_11, Eye3_12, Eye3_20, Eye3_21, Eye3_22] <;> ring

/-- C15: for all 3-vectors `v`, `p`, `q`, `ddTanSO3 v p q` returns a matrix, and
that matrix equals its transpose. -/
theorem ddTanSO3_symmetric (m : Libm K) (v p q : Vector3D K) :
    ∃ D, ddTanSO3 m v p q = some D ∧ Matrix.transpose D = D := by
  have hval : ∃ a3 b1 b2 b3 s, ddTanSO3 m v p q = some
      (addTensorProduct (addDiagonal (addTensorProduct (addTensorProduct (addTensorProduct
        (addTensorProduct (addDiagonal (addTensorProduct (addTensorProduct (addDiagonal
        (addTensorProduct (addTensorProduct (0 : Matrix3D K) p q a3) q p a3) (b1 * dot p q))
        (cross p q) v b2) v (cross p q) b2) (dot (cross v p) q * b2))
        q v (b3 * dot v p)) v q (b3 * dot v p)) p v (b3 * dot v q)) v p (b3 * dot v q))
        (dot v p * dot v q * b3)) v v s) := by
    by_cases h : dot v v ≤ 1 / 10000000
    · simp only [ddTanSO3, GibSO3]
      rw [if_pos h]
      exact ⟨_, _, _, _, _, rfl⟩
    · simp only [ddTanSO3, GibSO3]
      rw [if_neg h]
      exact ⟨_, _, _, _, _, rfl⟩
  obtain ⟨a3, b1, b2, b3, s, hD⟩ := hval
  exact ⟨_, hD, ddTanSO3_assembly_symm v p q a3 b1 b2 b3 s⟩
end

/-! ## Second differential of the inverse tangent map -/

lemma ddExpInvSO3_coef_trig (t : ℝ) (h : 0 ≤ t) :
    ddExpInvSO3_coef Libm.real t =
      ((Real.sin (t / 2) - t * t * Real.cos (t / 2)) / (t * t * Real.sin (t / 2)),
       (t * (t + 2 * Real.sin (t / 2) * Real.cos (t / 2)) - 8 * Real.sin (t / 2) * Real.sin (t / 2))
         / (4 * (t * (t * (t * t))) * Real.sin (t / 2) * Real.sin (t / 2))) := by
  have h0 : ¬ t < ((1 / 20 : Int) : ℝ) := by
    simpa using h
  simp only [ddExpInvSO3_coef, if_neg h0, Libm.real]

lemma dExpInvSO3_eta_trig (t : ℝ) (h : 0 < t) :
    dExpInvSO3_eta Libm.real t =
      (1 - (1 / 2) * t * (Real.cos ((1 / 2) * t) / Real.sin ((1 / 2) * t))) / (t * t) := by
  have h0 : t > ((1 / 20 : Int) : ℝ) := by
    simpa using h
  simp only [dExpInvSO3_eta, if_pos h0, cot, Libm.real]

/-- The entry `(2,1)` of the first factor of `ddExpInvSO3` for `th = (4,0,0)` and
a direction along the second axis. -/
lemma dH_entry_21 (s eta mu : ℝ) :
    (-(1 / 2 : ℝ) • Spin ![0, s, 0]
        + eta • (dot ![4, 0, 0] ![0, s, 0] • Eye3 + bun ![4, 0, 0] ![0, s, 0]
            - (2 : ℝ) • bun ![0, s, 0] ![4, 0, 0])
        + mu • (Spin ![4, 0, 0] * Spin ![4, 0, 0]) * bun ![0, s, 0] ![4, 0, 0]
      : Matrix3D ℝ) 1 0 = -8 * s * (eta + 8 * mu) ∧
    (-(1 / 2 : ℝ) • Spin ![0, s, 0]
        + eta • (dot ![4, 0, 0] ![0, s, 0] • Eye3 + bun ![4, 0, 0] ![0, s, 0]
            - (2 : ℝ) • bun ![0, s, 0] ![4, 0, 0])
        + mu • (Spin ![4, 0, 0] * Spin ![4, 0, 0]) * bun ![0, s, 0] ![4, 0, 0]
      : Matrix3D ℝ) 1 1 = 0 := by
  constructor
  · simp only [Matrix.add_apply, Matrix.sub_apply, Matrix.smul_apply, Matrix.mul_apply,
      Fin.sum_univ_three, smul_eq_mul, bun_apply, dot, Spin_00, Spin_01, Spin_02, Spin_10,
      Spin_11, Spin_12, Spin_20, Spin_21, Spin_22, Eye3_10]
    norm_num
    ring
  · simp only [Matrix.add_apply, Matrix.sub_apply, Matrix.smul_apply, Matrix.mul_apply,
      Fin.sum_univ_three, smul_eq_mul, bun_apply, dot, Spin_00, Spin_01, Spin_02, Spin_10,
      Spin_11, Spin_12, Spin_20, Spin_21, Spin_22, Eye3_11]
    norm_num

/-- The first column of `dExpInvSO3 (4,0,0)`. -/
lemma dExpInvSO3_four_col (i : Fin 3) :
    dExpInvSO3 Libm.real ![4, 0, 0] i 0 = Eye3 i 0 := by
  rw [dExpInvSO3_eq, Matrix.smul_mul]
  generalize dExpInvSO3_eta Libm.real _ = eta
  simp only [Matrix.add_apply, Matrix.sub_apply, Matrix.smul_apply, smul_eq_mul, Spin_sq_apply]
  fin_cases i <;>
    simp only [Fin.zero_eta, Fin.mk_one, Fin.reduceFinMk, Spin_00, Spin_10, Spin_20, Eye3_00,
      Eye3_10, Eye3_20] <;> norm_num [dot]


lemma norm_e2 (s : ℝ) (hs : 0 ≤ s) : norm Libm.real ![0, -s, 0] = s := by
  have h : dot (![0, -s, 0] : Vector3D ℝ) ![0, -s, 0] = s ^ 2 := by
    simp [dot]
    ring
  simp only [norm, Libm.real, h]
  exact Real.sqrt_sq hs

/-- The value of `ddExpInvSO3` at `th = (4,0,0)`, entry `(2,1)`, for a direction
`(0, t, 0)`: the coefficients are taken at the angle `3t/4` of the wrapped
direction. -/
lemma ddExpInvSO3_four_entry (t : ℝ) (ht : 0 ≤ t) :
    ddExpInvSO3 Libm.real (dExpInvSO3 Libm.real) ![4, 0, 0] ![0, t, 0] 1 0
      = 6 * t * ((ddExpInvSO3_coef Libm.real (3 / 4 * t)).1
          + 8 * (ddExpInvSO3_coef Libm.real (3 / 4 * t)).2) := by
  have hgt : |norm Libm.real ![4, 0, 0]| > Libm.real.pi / (101 / 100) := by
    rw [norm_four]
    exact four_gt_wrap_threshold
  have hw : wrapped Libm.real (norm Libm.real ![4, 0, 0]) ![0, t, 0] = ![0, -(3 / 4 * t), 0] := by
    rw [wrapped_four]
    funext i
    fin_cases i <;> simp
  rw [ddExpInvSO3_wrap _ _ _ _ hgt, hw, norm_e2 _ (by positivity), Matrix.mul_apply,
    Fin.sum_univ_three, dExpInvSO3_four_col, dExpInvSO3_four_col, dExpInvSO3_four_col,
    (dH_entry_21 _ _ _).1, Eye3_00, Eye3_10, Eye3_20]
  ring

/-- C16: at `th = (4,0,0)`, where `‖th‖ > π/1.01`, the map
`v ↦ ddExpInvSO3(th, v)` (with `dLogSO3` read as `dExpInvSO3`) is not linear:
for `v = (0, 4π/3, 0)` the entry `(2,1)` at `3·v` is not three times the entry
at `v`, because the wrapping step rescales `v` and takes the angle of `η`, `μ`
from the rescaled `v`. -/
theorem ddExpInvSO3_not_linear :
    |norm Libm.real ![4, 0, 0]| > Libm.real.pi / (101 / 100) ∧
    ddExpInvSO3 Libm.real (dExpInvSO3 Libm.real) ![4, 0, 0]
        ((3 : ℝ) • ![0, 4 * Real.pi / 3, 0]) 1 0
      ≠ 3 * ddExpInvSO3 Libm.real (dExpInvSO3 Libm.real) ![4, 0, 0]
        ![0, 4 * Real.pi / 3, 0] 1 0 := by
  have hgt : |norm Libm.real ![4, 0, 0]| > Libm.real.pi / (101 / 100) := by
    rw [norm_four]
    exact four_gt_wrap_threshold
  refine ⟨hgt, ?_⟩
  have h3v : ((3 : ℝ) • ![0, 4 * Real.pi / 3, 0] : Vector3D ℝ) = ![0, 4 * Real.pi, 0] := by
    funext i
    fin_cases i <;> simp
    ring
  have hpi := Real.pi_pos
  rw [h3v, ddExpInvSO3_four_entry _ (by positivity), ddExpInvSO3_four_entry _ (by positivity)]
  have e1 : 3 / 4 * (4 * Real.pi) = 3 * Real.pi := by ring
  have e2 : 3 / 4 * (4 * Real.pi / 3) = Real.pi := by ring
  rw [e1, e2, ddExpInvSO3_coef_trig _ (by positivity), ddExpInvSO3_coef_trig _ hpi.le]
  have s1 : Real.sin (Real.pi / 2) = 1 := Real.sin_pi_div_two
  have c1 : Real.cos (Real.pi / 2) = 0 := Real.cos_pi_div_two
  have s3 : Real.sin (3 * Real.pi / 2) = -1 := by
    rw [show 3 * Real.pi / 2 = Real.pi + Real.pi / 2 by ring, Real.sin_add_pi_div_two,
      Real.cos_pi]
  have c3 : Real.cos (3 * Real.pi / 2) = 0 := by
    rw [show 3 * Real.pi / 2 = Real.pi + Real.pi / 2 by ring, Real.cos_add_pi_div_two,
      Real.sin_pi, neg_zero]
  simp only [s1, c1, s3, c3]
  intro h
  have hne : Real.pi ≠ 0 := hpi.ne'
  field_simp at h
  have h9 : 9 < Real.pi ^ 2 := by nlinarith [Real.pi_gt_three]
  ring_nf at h
  nlinarith [pow_pos hpi 4, pow_pos hpi 6, pow_pos hpi 8, pow_pos hpi 10, pow_pos hpi 12]

/-- C18: for an angle `0 < θ ≤ π/1.01` the coefficient `η` of the trigonometric
branch of `ddExpInvSO3`, which the source writes
`(sn − angle2·cs)/(angle2·sn)`, equals the `η` of `dExpInvSO3` only at
`θ = 1/2`. -/
theorem ddExpInvSO3_eta_eq_iff (t : ℝ) (h0 : 0 < t) (h1 : t ≤ Real.pi / (101 / 100)) :
    (ddExpInvSO3_coef Libm.real t).1 = dExpInvSO3_eta Libm.real t ↔ t = 1 / 2 := by
  rw [ddExpInvSO3_coef_trig t h0.le, dExpInvSO3_eta_trig t h0]
  have hlt : t < Real.pi := by
    have : Real.pi / (101 / 100) < Real.pi := by
      rw [div_lt_iff₀ (by norm_num)]
      nlinarith [Real.pi_pos]
    linarith
  have hhalf : t / 2 = (1 / 2) * t := by ring
  rw [hhalf]
  have hs : 0 < Real.sin ((1 / 2) * t) :=
    Real.sin_pos_of_pos_of_lt_pi (by linarith) (by linarith)
  have hc : 0 < Real.cos ((1 / 2) * t) :=
    Real.cos_pos_of_mem_Ioo ⟨by linarith, by linarith⟩
  generalize Real.sin ((1 / 2) * t) = s at hs ⊢
  generalize Real.cos ((1 / 2) * t) = c at hc ⊢
  have ht : t ≠ 0 := h0.ne'
  have hs0 : s ≠ 0 := hs.ne'
  constructor
  · intro h
    field_simp at h
    have h2 : c * t * s * (t * t) * (2 * t - 1) = 0 := by linarith
    have hpos : c * t * s * (t * t) ≠ 0 := by positivity
    have := (mul_eq_zero.mp h2).resolve_left hpos
    linarith
  · intro h
    subst h
    field_simp
    ring

/-- C18 at `θ = 1`, where the two coefficients differ. -/
theorem ddExpInvSO3_eta_eq_iff_witness :
    (0 : ℝ) < 1 ∧ (1 : ℝ) ≤ Real.pi / (101 / 100) ∧
      ((ddExpInvSO3_coef Libm.real 1).1 = dExpInvSO3_eta Libm.real 1 ↔ (1 : ℝ) = 1 / 2) :=
  have h1 : (1 : ℝ) ≤ Real.pi / (101 / 100) := by
    rw [le_div_iff₀ (by norm_num)]
    linarith [Real.pi_gt_three]
  ⟨by norm_num, h1, ddExpInvSO3_eta_eq_iff 1 (by norm_num) h1⟩

/-! ## The exponential map in the general branch -/

/-- C19: for every `v` of the general branch (`v·v > 1e-7`), `ExpSO3 v` returns
`R = I + a₁·Spin(v) + a₂·Spin(v)²` with `a₁ = sin θ/θ`, `a₂ = (1 − cos θ)/θ²`,
`θ = ‖v‖`, and `Rᵗ·R = I`, `det R = 1`. -/
theorem ExpSO3_general_is_rotation (v : Vector3D ℝ) (h : 1 / 10000000 < dot v v) :
    ∃ R, ExpSO3 Libm.real v = some R ∧
      R = Eye3 + (Real.sin (norm Libm.real v) / norm Libm.real v) • Spin v
            + ((1 - Real.cos (norm Libm.real v)) / norm Libm.real v ^ 2) • (Spin v * Spin v) ∧
      Matrix.transpose R * R = 1 ∧ R.det = 1 := by
  obtain ⟨R, hR, hRR, hdet⟩ := ExpSO3_real_general_rotation v (not_le.mpr h)
  refine ⟨R, hR, ?_, hRR, hdet⟩
  have hsq : norm Libm.real v ^ 2 = dot v v := Real.sq_sqrt (dot_self_nonneg v)
  rw [ExpSO3_general _ _ (not_le.mpr h)] at hR
  rw [← Option.some.inj hR, hsq, Matrix.smul_mul]
  rfl

/-- C19 at `v = (1, 0, 0)`. -/
theorem ExpSO3_general_is_rotation_witness :
    1 / 10000000 < dot (![1, 0, 0] : Vector3D ℝ) ![1, 0, 0] ∧
      ∃ R, ExpSO3 Libm.real ![1, 0, 0] = some R ∧
        R = Eye3 + (Real.sin (norm Libm.real ![1, 0, 0]) / norm Libm.real ![1, 0, 0])
                • Spin ![1, 0, 0]
              + ((1 - Real.cos (norm Libm.real ![1, 0, 0])) / norm Libm.real ![1, 0, 0] ^ 2)
                • (Spin ![1, 0, 0] * Spin ![1, 0, 0]) ∧
        Matrix.transpose R * R = 1 ∧ R.det = 1 :=
  ⟨by norm_num [dot], ExpSO3_general_is_rotation _ (by norm_num [dot])⟩

/-! ## The threshold of `dExpInvSO3` -/

/-- Real and imaginary part of the exponential series of `x·i` up to order 15. -/
lemma exp_series_re_im (x : ℝ) :
    (∑ m ∈ Finset.range 16, ((x : ℂ) * Complex.I) ^ m / (m.factorial : ℂ)).re
      = 1 - x ^ 2 / 2 + x ^ 4 / 24 - x ^ 6 / 720 + x ^ 8 / 40320 - x ^ 10 / 3628800
        + x ^ 12 / 479001600 - x ^ 14 / 87178291200 ∧
    (∑ m ∈ Finset.range 16, ((x : ℂ) * Complex.I) ^ m / (m.factorial : ℂ)).im
      = x - x ^ 3 / 6 + x ^ 5 / 120 - x ^ 7 / 5040 + x ^ 9 / 362880 - x ^ 11 / 39916800
        + x ^ 13 / 6227020800 - x ^ 15 / 1307674368000 := by
  have h2 : Complex.I ^ 2 = -1 := Complex.I_sq
  have h3 : Complex.I ^ 3 = -Complex.I := by rw [pow_succ, h2]; ring
  have h4 : Complex.I ^ 4 = 1 := by rw [pow_succ, h3]; ring_nf; rw [h2]; ring
  have hpow : ∀ k : ℕ, Complex.I ^ (4 + k) = Complex.I ^ k := by
    intro k; rw [pow_add, h4, one_mul]
  simp only [Finset.sum_range_succ, Finset.range_zero, Finset.sum_empty, mul_pow]
  have e5 : Complex.I ^ 5 = Complex.I := by rw [show 5 = 4 + 1 by rfl, hpow]; simp
  have e6 : Complex.I ^ 6 = -1 := by rw [show 6 = 4 + 2 by rfl, hpow, h2]
  have e7 : Complex.I ^ 7 = -Complex.I := by rw [show 7 = 4 + 3 by rfl, hpow, h3]
  have e8 : Complex.I ^ 8 = 1 := by rw [show 8 = 4 + 4 by rfl, hpow, h4]
  have e9 : Complex.I ^ 9 = Complex.I := by rw [show 9 = 4 + 5 by rfl, hpow, e5]
  have e10 : Complex.I ^ 10 = -1 := by rw [show 10 = 4 + 6 by rfl, hpow, e6]
  have e11 : Complex.I ^ 11 = -Complex.I := by rw [show 11 = 4 + 7 by rfl, hpow, e7]
  have e12 : Complex.I ^ 12 = 1 := by rw [show 12 = 4 + 8 by rfl, hpow, e8]
  have e13 : Complex.I ^ 13 = Complex.I := by rw [show 13 = 4 + 9 by rfl, hpow, e9]
  have e14 : Complex.I ^ 14 = -1 := by rw [show 14 = 4 + 10 by rfl, hpow, e10]
  have e15 : Complex.I ^ 15 = -Complex.I := by rw [show 15 = 4 + 11 by rfl, hpow, e11]
  rw [h2, h3, h4, e5, e6, e7, e8, e9, e10, e11, e12, e13, e14, e15]
  constructor
  · simp [Nat.factorial, ← Complex.ofReal_pow, ← Complex.ofReal_natCast, ← Complex.ofReal_div]
    ring
  · simp [Nat.factorial, ← Complex.ofReal_pow]
    ring

/-- The Taylor polynomials of `cos` (degree 14) and `sin` (degree 15) on `[-1, 1]`,
with remainder of order 16. -/
lemma cos_sin_taylor_bound (x : ℝ) (hx : |x| ≤ 1) :
    |Real.cos x - (1 - x ^ 2 / 2 + x ^ 4 / 24 - x ^ 6 / 720 + x ^ 8 / 40320 - x ^ 10 / 3628800
        + x ^ 12 / 479001600 - x ^ 14 / 87178291200)| ≤ |x| ^ 16 / 19692037541647 ∧
    |Real.sin x - (x - x ^ 3 / 6 + x ^ 5 / 120 - x ^ 7 / 5040 + x ^ 9 / 362880
        - x ^ 11 / 39916800 + x ^ 13 / 6227020800 - x ^ 15 / 1307674368000)|
      ≤ |x| ^ 16 / 19692037541647 := by
  have habs : Complex.abs ((x : ℂ) * Complex.I) = |x| := by
    rw [map_mul, Complex.abs_I, mul_one, Complex.abs_ofReal]
  have hb := @Complex.exp_bound ((x : ℂ) * Complex.I) (by rw [habs]; exact hx) 16 (by norm_num)
  rw [habs] at hb
  have hc : (|x| ^ 16 * ((Nat.succ 16 : ℕ) * ((Nat.factorial 16 : ℕ) * (16 : ℕ) : ℝ)⁻¹) : ℝ)
      ≤ |x| ^ 16 / 19692037541647 := by
    have h16 : (Nat.factorial 16 : ℝ) = 20922789888000 := by
      norm_num [Nat.factorial]
    rw [h16, div_eq_mul_inv]
    apply mul_le_mul_of_nonneg_left _ (by positivity)
    norm_num
  obtain ⟨hre, him⟩ := exp_series_re_im x
  constructor
  · have h := (Complex.abs_re_le_abs _).trans (hb.trans hc)
    rwa [Complex.sub_re, Complex.exp_ofReal_mul_I_re, hre] at h
  · have h := (Complex.abs_im_le_abs _).trans (hb.trans hc)
    rwa [Complex.sub_im, Complex.exp_ofReal_mul_I_im, him] at h

lemma norm_twentieth : norm Libm.real ![1 / 20, 0, 0] = 1 / 20 := by
  have h : dot (![1 / 20, 0, 0] : Vector3D ℝ) ![1 / 20, 0, 0] = (1 / 20) ^ 2 := by
    norm_num [dot]
  simp only [norm, Libm.real, h]
  exact Real.sqrt_sq (by norm_num)

/-- The entry `(2,2)` of `I − ½·Spin(u) + η·Spin(u)²` for `u` along the first axis. -/
lemma inv_tangent_entry_22 (t eta : ℝ) :
    (Eye3 - (1 / 2 : ℝ) • Spin ![t, 0, 0] + eta • Spin ![t, 0, 0] * Spin ![t, 0, 0]
        : Matrix3D ℝ) 1 1 = 1 - eta * (t * t) := by
  rw [Matrix.smul_mul]
  simp only [Matrix.add_apply, Matrix.sub_apply, Matrix.smul_apply, smul_eq_mul, Spin_sq_apply,
    Eye3_11, Spin_11, dot]
  norm_num
  ring

/-- At the angle `1/20` the closed form of `η` exceeds the truncated Maclaurin
series. -/
lemma eta_cot_gt_series :
    1 / 12 + (1 / 20 : ℝ) ^ 2 / 720 + (1 / 20) ^ 4 / 30240 + (1 / 20) ^ 6 / 1209600
      < (1 - 1 / 2 * (1 / 20) * (Real.cos (1 / 2 * (1 / 20)) / Real.sin (1 / 2 * (1 / 20))))
          / (1 / 20 * (1 / 20)) := by
  have e : (1 / 2 * (1 / 20) : ℝ) = 1 / 40 := by norm_num
  rw [e]
  obtain ⟨hc, hs⟩ := cos_sin_taylor_bound (1 / 40) (by rw [abs_of_pos] <;> norm_num)
  rw [abs_of_pos (by norm_num : (0 : ℝ) < 1 / 40), abs_le] at hc hs
  have hspos : 0 < Real.sin (1 / 40) :=
    Real.sin_pos_of_pos_of_lt_pi (by norm_num) (by linarith [Real.pi_gt_three])
  rw [lt_div_iff₀ (by norm_num), lt_sub_iff_add_lt, ← lt_sub_iff_add_lt', mul_div_assoc',
    div_lt_iff₀ hspos]
  norm_num at hc hs ⊢
  linarith [hc.2, hs.1]


/-- C13: at `v = (1/20, 0, 0)`, with `θ = ‖v‖ = 1/20` not above the stated
threshold, `dExpInvSO3 v` is `I − ½·Spin(v) + η·Spin(v)²` with the cotangent
value `η = (1 − ½θ·cot(½θ))/θ²`, and is not the matrix with the Maclaurin value
`η = 1/12 + θ²/720 + θ⁴/30240 + θ⁶/1209600`; the Maclaurin branch at `θ = 0` (`tol` is
`0`) gives `η = 0`. -/
theorem dExpInvSO3_threshold_is_zero :
    norm Libm.real ![1 / 20, 0, 0] = 1 / 20 ∧
    dExpInvSO3 Libm.real ![1 / 20, 0, 0]
      = Eye3 - (1 / 2 : ℝ) • Spin ![1 / 20, 0, 0]
          + ((1 - 1 / 2 * (1 / 20) * cot Libm.real (1 / 2 * (1 / 20))) / (1 / 20 * (1 / 20)))
            • Spin ![1 / 20, 0, 0] * Spin ![1 / 20, 0, 0] ∧
    dExpInvSO3 Libm.real ![1 / 20, 0, 0]
      ≠ Eye3 - (1 / 2 : ℝ) • Spin ![1 / 20, 0, 0]
          + (1 / 12 + (1 / 20 : ℝ) ^ 2 / 720 + (1 / 20) ^ 4 / 30240 + (1 / 20) ^ 6 / 1209600)
            • Spin ![1 / 20, 0, 0] * Spin ![1 / 20, 0, 0] ∧
    dExpInvSO3_eta Libm.real 0 = 0 := by
  have hle : norm Libm.real ![1 / 20, 0, 0] ≤ Real.pi / (101 / 100) := by
    rw [norm_twentieth, le_div_iff₀ (by norm_num)]
    linarith [Real.pi_gt_three]
  have hval : dExpInvSO3 Libm.real ![1 / 20, 0, 0]
      = Eye3 - (1 / 2 : ℝ) • Spin ![1 / 20, 0, 0]
          + ((1 - 1 / 2 * (1 / 20) * cot Libm.real (1 / 2 * (1 / 20))) / (1 / 20 * (1 / 20)))
            • Spin ![1 / 20, 0, 0] * Spin ![1 / 20, 0, 0] := by
    rw [dExpInvSO3_nowrap _ hle, norm_twentieth, if_pos (by norm_num)]
  refine ⟨norm_twentieth, hval, ?_, ?_⟩
  · rw [hval]
    intro h
    have h22 := congrFun (congrFun h 1) 1
    rw [inv_tangent_entry_22, inv_tangent_entry_22] at h22
    have hlt := eta_cot_gt_series
    simp only [cot, Libm.real] at h22
    linarith
  · simp [dExpInvSO3_eta]

/-! ## The series of the `b` and `c` families -/

section
variable {K : Type} [LinearOrderedField K]

/-- In the general branch `GibSO3` returns what `GibSO3_general` computes. -/
lemma GibSO3_eq_general (m : Libm K) (v : Vector3D K) (a b c : Coef K)
    (h : ¬ dot v v ≤ 1 / 10000000) :
    GibSO3 m v (some a) (some b) (some c)
      = some ⟨some (GibSO3_general m (dot v v) (norm m v) a b c).1,
          some (GibSO3_general m (dot v v) (norm m v) a b c).2.1,
          some (GibSO3_general m (dot v v) (norm m v) a b c).2.2⟩ := by
  simp only [GibSO3, if_neg h]
  rfl

lemma GibSO3_general_a (m : Libm K) (x t : K) (a b c : Coef K) :
    (GibSO3_general m x t a b c).1 1 = m.sin t / t ∧
    (GibSO3_general m x t a b c).1 2 = (1 - m.cos t) / x ∧
    (GibSO3_general m x t a b c).1 3 = (t - m.sin t) / (t * x) := by
  simp [GibSO3_general, Function.update]

lemma GibSO3_general_b (m : Libm K) (x t : K) (a b c : Coef K) :
    (GibSO3_general m x t a b c).2.1 1 = (t * m.cos t - m.sin t) / (t * x) ∧
    (GibSO3_general m x t a b c).2.1 2 = (t * m.sin t - 2 + 2 * m.cos t) / (t * (t * x)) ∧
    (GibSO3_general m x t a b c).2.1 3
      = (3 * m.sin t - 2 * t - t * m.cos t) / (t * (t * (t * x))) := by
  simp [GibSO3_general, Function.update]

lemma GibSO3_general_c (m : Libm K) (x t : K) (a b c : Coef K) :
    (GibSO3_general m x t a b c).2.2 1
      = (3 * m.sin t - x * m.sin t - 3 * t * m.cos t) / (t * (t * (t * x))) ∧
    (GibSO3_general m x t a b c).2.2 2
      = (8 - 8 * m.cos t - 5 * t * m.sin t + x * m.cos t) / (t * (t * (t * x)) * t) ∧
    (GibSO3_general m x t a b c).2.2 3
      = (8 * t + 7 * t * m.cos t + x * m.sin t - 15 * m.sin t) / (t * (t * (t * x)) * x) := by
  simp [GibSO3_general, Function.update]
end

/-- Two-sided bounds of `sin θ`, `cos θ` by their Taylor polynomials, for
`0 < θ ≤ 1`. -/
lemma trig_taylor_pos (θ : ℝ) (h0 : 0 < θ) (h1 : θ ≤ 1) :
    |Real.cos θ - (1 - θ ^ 2 / 2 + θ ^ 4 / 24 - θ ^ 6 / 720 + θ ^ 8 / 40320 - θ ^ 10 / 3628800
        + θ ^ 12 / 479001600 - θ ^ 14 / 87178291200)| ≤ θ ^ 16 / 19692037541647 ∧
    |Real.sin θ - (θ - θ ^ 3 / 6 + θ ^ 5 / 120 - θ ^ 7 / 5040 + θ ^ 9 / 362880
        - θ ^ 11 / 39916800 + θ ^ 13 / 6227020800 - θ ^ 15 / 1307674368000)|
      ≤ θ ^ 16 / 19692037541647 := by
  have h := cos_sin_taylor_bound θ (by rw [abs_of_pos h0]; exact h1)
  rwa [abs_of_pos h0] at h

/-- The closed form of `b[1]` and its series agree up to `θ⁸`. -/
lemma closed_b1_series (θ : ℝ) (h0 : 0 < θ) (h1 : θ ≤ 1) :
    |(θ * Real.cos θ - Real.sin θ) / (θ * (θ * θ))
        - (-1 / 3 + θ ^ 2 / 30 - θ ^ 4 / 840 + θ ^ 6 / 45360)| ≤ θ ^ 8 := by
  obtain ⟨hc, hs⟩ := trig_taylor_pos θ h0 h1
  rw [abs_le] at hc hs
  have hD : 0 < θ * (θ * θ) := by positivity
  have c1 := mul_le_mul_of_nonneg_left hc.1 h0.le
  have c2 := mul_le_mul_of_nonneg_left hc.2 h0.le
  have p : ∀ j : ℕ, 0 ≤ θ ^ j := fun j => pow_nonneg h0.le j
  have q : ∀ j T : ℕ, T ≤ j → θ ^ j ≤ θ ^ T := fun j T h => pow_le_pow_of_le_one h0.le h1 h
  rw [abs_le]
  constructor
  · rw [le_sub_iff_add_le, le_div_iff₀ hD]
    linarith [hs.1, hs.2, c1, c2, p 11, p 13, p 15, p 16, p 17, q 13 11 (by norm_num), q 15 11 (by norm_num), q 16 11 (by norm_num), q 17 11 (by norm_num)]
  · rw [sub_le_iff_le_add, div_le_iff₀ hD]
    linarith [hs.1, hs.2, c1, c2, p 11, p 13, p 15, p 16, p 17, q 13 11 (by norm_num), q 15 11 (by norm_num), q 16 11 (by norm_num), q 17 11 (by norm_num)]

/-- The closed form of `b[2]` and its series agree up to `θ⁸`. -/
lemma closed_b2_series (θ : ℝ) (h0 : 0 < θ) (h1 : θ ≤ 1) :
    |(θ * Real.sin θ - 2 + 2 * Real.cos θ) / (θ * (θ * (θ * θ)))
        - (-1 / 12 + θ ^ 2 / 180 - θ ^ 4 / 6720 + θ ^ 6 / 453600)| ≤ θ ^ 8 := by
  obtain ⟨hc, hs⟩ := trig_taylor_pos θ h0 h1
  rw [abs_le] at hc hs
  have hD : 0 < θ * (θ * (θ * θ)) := by positivity
  have s1 := mul_le_mul_of_nonneg_left hs.1 h0.le
  have s2 := mul_le_mul_of_nonneg_left hs.2 h0.le
  have p : ∀ j : ℕ, 0 ≤ θ ^ j := fun j => pow_nonneg h0.le j
  have q : ∀ j T : ℕ, T ≤ j → θ ^ j ≤ θ ^ T := fun j T h => pow_le_pow_of_le_one h0.le h1 h
  rw [abs_le]
  constructor
  · rw [le_sub_iff_add_le, le_div_iff₀ hD]
    linarith [hc.1, hc.2, s1, s2, p 12, p 14, p 16, p 17, q 14 12 (by norm_num), q 16 12 (by norm_num), q 17 12 (by norm_num)]
  · rw [sub_le_iff_le_add, div_le_iff₀ hD]
    linarith [hc.1, hc.2, s1, s2, p 12, p 14, p 16, p 17, q 14 12 (by norm_num), q 16 12 (by norm_num), q 17 12 (by norm_num)]

/-- The closed form of `b[3]` and its series agree up to `θ⁸`. -/
lemma closed_b3_series (θ : ℝ) (h0 : 0 < θ) (h1 : θ ≤ 1) :
    |(3 * Real.sin θ - 2 * θ - θ * Real.cos θ) / (θ * (θ * (θ * (θ * θ))))
        - (-1 / 60 + θ ^ 2 / 1260 - θ ^ 4 / 60480 + θ ^ 6 / 4989600)| ≤ θ ^ 8 := by
  obtain ⟨hc, hs⟩ := trig_taylor_pos θ h0 h1
  rw [abs_le] at hc hs
  have hD : 0 < θ * (θ * (θ * (θ * θ))) := by positivity
  have c1 := mul_le_mul_of_nonneg_left hc.1 h0.le
  have c2 := mul_le_mul_of_nonneg_left hc.2 h0.le
  have p : ∀ j : ℕ, 0 ≤ θ ^ j := fun j => pow_nonneg h0.le j
  have q : ∀ j T : ℕ, T ≤ j → θ ^ j ≤ θ ^ T := fun j T h => pow_le_pow_of_le_one h0.le h1 h
  rw [abs_le]
  constructor
  · rw [le_sub_iff_add_le, le_div_iff₀ hD]
    linarith [hs.1, hs.2, c1, c2, p 13, p 15, p 16, p 17, q 15 13 (by norm_num), q 16 13 (by norm_num), q 17 13 (by norm_num)]
  · rw [sub_le_iff_le_add, div_le_iff₀ hD]
    linarith [hs.1, hs.2, c1, c2, p 13, p 15, p 16, p 17, q 15 13 (by norm_num), q 16 13 (by norm_num), q 17 13 (by norm_num)]

/-- The closed form of `c[1]` and its series agree up to `θ⁸`. -/
lemma closed_c1_series (θ : ℝ) (h0 : 0 < θ) (h1 : θ ≤ 1) :
    |(3 * Real.sin θ - θ * θ * Real.sin θ - 3 * θ * Real.cos θ) / (θ * (θ * (θ * (θ * θ))))
        - ((-1 / 60 + θ ^ 2 / 1260 - θ ^ 4 / 60480 + θ ^ 6 / 4989600)
          - (-1 / 12 + θ ^ 2 / 180 - θ ^ 4 / 6720 + θ ^ 6 / 453600))| ≤ θ ^ 8 := by
  obtain ⟨hc, hs⟩ := trig_taylor_pos θ h0 h1
  rw [abs_le] at hc hs
  have hD : 0 < θ * (θ * (θ * (θ * θ))) := by positivity
  have h2 : 0 ≤ θ * θ := by positivity
  have c1 := mul_le_mul_of_nonneg_left hc.1 h0.le
  have c2 := mul_le_mul_of_nonneg_left hc.2 h0.le
  have ss1 := mul_le_mul_of_nonneg_left hs.1 h2
  have ss2 := mul_le_mul_of_nonneg_left hs.2 h2
  have p : ∀ j : ℕ, 0 ≤ θ ^ j := fun j => pow_nonneg h0.le j
  have q : ∀ j T : ℕ, T ≤ j → θ ^ j ≤ θ ^ T := fun j T h => pow_le_pow_of_le_one h0.le h1 h
  rw [abs_le]
  constructor
  · rw [le_sub_iff_add_le, le_div_iff₀ hD]
    linarith [hs.1, hs.2, c1, c2, ss1, ss2, p 13, p 15, p 16, p 17, p 18, q 15 13 (by norm_num), q 16 13 (by norm_num), q 17 13 (by norm_num), q 18 13 (by norm_num)]
  · rw [sub_le_iff_le_add, div_le_iff₀ hD]
    linarith [hs.1, hs.2, c1, c2, ss1, ss2, p 13, p 15, p 16, p 17, p 18, q 15 13 (by norm_num), q 16 13 (by norm_num), q 17 13 (by norm_num), q 18 13 (by norm_num)]

/-- The closed form of `c[2]` and its series agree up to `θ⁸`. -/
lemma closed_c2_series (θ : ℝ) (h0 : 0 < θ) (h1 : θ ≤ 1) :
    |(8 - 8 * Real.cos θ - 5 * θ * Real.sin θ + θ * θ * Real.cos θ)
        / (θ * (θ * (θ * (θ * θ))) * θ)
        - (1 / 90 - θ ^ 2 / 1680 + θ ^ 4 / 75600 - θ ^ 6 / 5987520)| ≤ θ ^ 8 := by
  obtain ⟨hc, hs⟩ := trig_taylor_pos θ h0 h1
  rw [abs_le] at hc hs
  have hD : 0 < θ * (θ * (θ * (θ * θ))) * θ := by positivity
  have h2 : 0 ≤ θ * θ := by positivity
  have s1 := mul_le_mul_of_nonneg_left hs.1 h0.le
  have s2 := mul_le_mul_of_nonneg_left hs.2 h0.le
  have cc1 := mul_le_mul_of_nonneg_left hc.1 h2
  have cc2 := mul_le_mul_of_nonneg_left hc.2 h2
  have p : ∀ j : ℕ, 0 ≤ θ ^ j := fun j => pow_nonneg h0.le j
  have q : ∀ j T : ℕ, T ≤ j → θ ^ j ≤ θ ^ T := fun j T h => pow_le_pow_of_le_one h0.le h1 h
  rw [abs_le]
  constructor
  · rw [le_sub_iff_add_le, le_div_iff₀ hD]
    linarith [hc.1, hc.2, s1, s2, cc1, cc2, p 14, p 16, p 17, p 18, q 16 14 (by norm_num), q 17 14 (by norm_num), q 18 14 (by norm_num)]
  · rw [sub_le_iff_le_add, div_le_iff₀ hD]
    linarith [hc.1, hc.2, s1, s2, cc1, cc2, p 14, p 16, p 17, p 18, q 16 14 (by norm_num), q 17 14 (by norm_num), q 18 14 (by norm_num)]

/-- The closed form of `c[3]` and its series agree up to `θ⁸`. -/
lemma closed_c3_series (θ : ℝ) (h0 : 0 < θ) (h1 : θ ≤ 1) :
    |(8 * θ + 7 * θ * Real.cos θ + θ * θ * Real.sin θ - 15 * Real.sin θ)
        / (θ * (θ * (θ * (θ * θ))) * (θ * θ))
        - (1 / 630 - θ ^ 2 / 15120 + θ ^ 4 / 831600 - θ ^ 6 / 77837760)| ≤ θ ^ 8 := by
  obtain ⟨hc, hs⟩ := trig_taylor_pos θ h0 h1
  rw [abs_le] at hc hs
  have hD : 0 < θ * (θ * (θ * (θ * θ))) * (θ * θ) := by positivity
  have h2 : 0 ≤ θ * θ := by positivity
  have c1 := mul_le_mul_of_nonneg_left hc.1 h0.le
  have c2 := mul_le_mul_of_nonneg_left hc.2 h0.le
  have ss1 := mul_le_mul_of_nonneg_left hs.1 h2
  have ss2 := mul_le_mul_of_nonneg_left hs.2 h2
  have p : ∀ j : ℕ, 0 ≤ θ ^ j := fun j => pow_nonneg h0.le j
  have q : ∀ j T : ℕ, T ≤ j → θ ^ j ≤ θ ^ T := fun j T h => pow_le_pow_of_le_one h0.le h1 h
  rw [abs_le]
  constructor
  · rw [le_sub_iff_add_le, le_div_iff₀ hD]
    linarith [hs.1, hs.2, c1, c2, ss1, ss2, p 15, p 16, p 17, p 18, q 16 15 (by norm_num), q 17 15 (by norm_num), q 18 15 (by norm_num)]
  · rw [sub_le_iff_le_add, div_le_iff₀ hD]
    linarith [hs.1, hs.2, c1, c2, ss1, ss2, p 15, p 16, p 17, p 18, q 16 15 (by norm_num), q 17 15 (by norm_num), q 18 15 (by norm_num)]

/-- C17: for every `v` with `x = v·v ≤ 1e-7` the small-angle branch of `GibSO3`
(all three arrays supplied) returns `b[1] = −1/3 + x/30 − x²/840 + x³/45360`,
`b[2] = −1/12 + x/180 − x²/6720 + x³/453600`,
`b[3] = −1/60 + x/1260 − x²/60480 + x³/4989600`, `c[1] = b[3] − b[2]`,
`c[2] = 1/90 − x/1680 + x²/75600 − x³/5987520`,
`c[3] = 1/630 − x/15120 + x²/831600 − x³/77837760`; and these polynomials, at
`x = θ²`, are the Maclaurin series of the closed forms of the general branch
truncated after `θ⁶`: for `0 < θ ≤ 1` each closed form differs from its
polynomial by at most `θ⁸`. -/
theorem GibSO3_small_bc_maclaurin (v : Vector3D ℝ) (a0 b0 c0 : Coef ℝ) (θ : ℝ)
    (h : dot v v ≤ 1 / 10000000) (h0 : 0 < θ) (h1 : θ ≤ 1) :
    (∃ a b c, GibSO3 Libm.real v (some a0) (some b0) (some c0) = some ⟨some a, some b, some c⟩ ∧
      b 1 = -1 / 3 + dot v v / 30 - dot v v ^ 2 / 840 + dot v v ^ 3 / 45360 ∧
      b 2 = -1 / 12 + dot v v / 180 - dot v v ^ 2 / 6720 + dot v v ^ 3 / 453600 ∧
      b 3 = -1 / 60 + dot v v / 1260 - dot v v ^ 2 / 60480 + dot v v ^ 3 / 4989600 ∧
      c 1 = b 3 - b 2 ∧
      c 2 = 1 / 90 - dot v v / 1680 + dot v v ^ 2 / 75600 - dot v v ^ 3 / 5987520 ∧
      c 3 = 1 / 630 - dot v v / 15120 + dot v v ^ 2 / 831600 - dot v v ^ 3 / 77837760) ∧
    |(GibSO3_general Libm.real (θ * θ) θ a0 b0 c0).2.1 1
        - (-1 / 3 + θ ^ 2 / 30 - θ ^ 4 / 840 + θ ^ 6 / 45360)| ≤ θ ^ 8 ∧
    |(GibSO3_general Libm.real (θ * θ) θ a0 b0 c0).2.1 2
        - (-1 / 12 + θ ^ 2 / 180 - θ ^ 4 / 6720 + θ ^ 6 / 453600)| ≤ θ ^ 8 ∧
    |(GibSO3_general Libm.real (θ * θ) θ a0 b0 c0).2.1 3
        - (-1 / 60 + θ ^ 2 / 1260 - θ ^ 4 / 60480 + θ ^ 6 / 4989600)| ≤ θ ^ 8 ∧
    |(GibSO3_general Libm.real (θ * θ) θ a0 b0 c0).2.2 1
        - ((-1 / 60 + θ ^ 2 / 1260 - θ ^ 4 / 60480 + θ ^ 6 / 4989600)
          - (-1 / 12 + θ ^ 2 / 180 - θ ^ 4 / 6720 + θ ^ 6 / 453600))| ≤ θ ^ 8 ∧
    |(GibSO3_general Libm.real (θ * θ) θ a0 b0 c0).2.2 2
        - (1 / 90 - θ ^ 2 / 1680 + θ ^ 4 / 75600 - θ ^ 6 / 5987520)| ≤ θ ^ 8 ∧
    |(GibSO3_general Libm.real (θ * θ) θ a0 b0 c0).2.2 3
        - (1 / 630 - θ ^ 2 / 15120 + θ ^ 4 / 831600 - θ ^ 6 / 77837760)| ≤ θ ^ 8 := by
  refine ⟨?_, ?_, ?_, ?_, ?_, ?_, ?_⟩
  · simp only [GibSO3, Option.map_some']
    rw [if_pos h]
    refine ⟨_, _, _, rfl, ?_, ?_, ?_, ?_, ?_, ?_⟩
    · simp [Function.update]
      ring
    · simp [Function.update]
      ring
    · simp [Function.update]
      ring
    · simp [Function.update]
    · simp [Function.update]
      ring
    · simp [Function.update]
      ring
  · rw [(GibSO3_general_b _ _ _ _ _ _).1]
    exact closed_b1_series θ h0 h1
  · rw [(GibSO3_general_b _ _ _ _ _ _).2.1]
    exact closed_b2_series θ h0 h1
  · rw [(GibSO3_general_b _ _ _ _ _ _).2.2]
    exact closed_b3_series θ h0 h1
  · rw [(GibSO3_general_c _ _ _ _ _ _).1]
    exact closed_c1_series θ h0 h1
  · rw [(GibSO3_general_c _ _ _ _ _ _).2.1]
    exact closed_c2_series θ h0 h1
  · rw [(GibSO3_general_c _ _ _ _ _ _).2.2]
    exact closed_c3_series θ h0 h1

/-- C17 at `v = 0` and `θ = 1`. -/
theorem GibSO3_small_bc_maclaurin_witness :
    dot (0 : Vector3D ℝ) 0 ≤ 1 / 10000000 ∧ (0 : ℝ) < 1 ∧ (1 : ℝ) ≤ 1 ∧
    |(GibSO3_general Libm.real (1 * 1) 1 localCoef localCoef localCoef).2.2 3
        - (1 / 630 - 1 ^ 2 / 15120 + 1 ^ 4 / 831600 - 1 ^ 6 / 77837760)| ≤ (1 : ℝ) ^ 8 :=
  ⟨by norm_num [dot], by norm_num, le_refl 1,
    (GibSO3_small_bc_maclaurin 0 localCoef localCoef localCoef 1 (by norm_num [dot])
      (by norm_num) (le_refl 1)).2.2.2.2.2.2⟩

/-! ## The derivative chain of the closed forms -/

/-- The derivative chain of the closed forms of the general branch. -/
lemma closed_form_derivatives (θ : ℝ) (h : θ ≠ 0) :
    HasDerivAt (fun t : ℝ => Real.sin t / t)
      (θ * ((θ * Real.cos θ - Real.sin θ) / (θ * (θ * θ)))) θ ∧
    HasDerivAt (fun t : ℝ => (1 - Real.cos t) / (t * t))
      (θ * ((θ * Real.sin θ - 2 + 2 * Real.cos θ) / (θ * (θ * (θ * θ))))) θ ∧
    HasDerivAt (fun t : ℝ => (t - Real.sin t) / (t * (t * t)))
      (θ * ((3 * Real.sin θ - 2 * θ - θ * Real.cos θ) / (θ * (θ * (θ * (θ * θ)))))) θ ∧
    HasDerivAt (fun t : ℝ => (t * Real.cos t - Real.sin t) / (t * (t * t)))
      (θ * ((3 * Real.sin θ - θ * θ * Real.sin θ - 3 * θ * Real.cos θ)
        / (θ * (θ * (θ * (θ * θ)))))) θ ∧
    HasDerivAt (fun t : ℝ => (t * Real.sin t - 2 + 2 * Real.cos t) / (t * (t * (t * t))))
      (θ * ((8 - 8 * Real.cos θ - 5 * θ * Real.sin θ + θ * θ * Real.cos θ)
        / (θ * (θ * (θ * (θ * θ))) * θ))) θ ∧
    HasDerivAt (fun t : ℝ => (3 * Real.sin t - 2 * t - t * Real.cos t)
        / (t * (t * (t * (t * t)))))
      (θ * ((8 * θ + 7 * θ * Real.cos θ + θ * θ * Real.sin θ - 15 * Real.sin θ)
        / (θ * (θ * (θ * (θ * θ))) * (θ * θ)))) θ := by
  have hid := hasDerivAt_id' θ
  have hs := Real.hasDerivAt_sin θ
  have hc := Real.hasDerivAt_cos θ
  have d2 := hid.mul hid
  have d3 := hid.mul d2
  have d4 := hid.mul d3
  have d5 := hid.mul d4
  have n3 : θ * (θ * θ) ≠ 0 := by positivity
  have n2 : θ * θ ≠ 0 := by positivity
  have n4 : θ * (θ * (θ * θ)) ≠ 0 := by positivity
  have n5 : θ * (θ * (θ * (θ * θ))) ≠ 0 := by positivity
  refine ⟨?_, ?_, ?_, ?_, ?_, ?_⟩
  · have := hs.div hid h
    convert this using 1
    field_simp
    ring
  · have := (hc.const_sub 1).div d2 n2
    convert this using 1
    field_simp
    ring
  · have := (hid.sub hs).div d3 n3
    convert this using 1
    field_simp
    ring
  · have := ((hid.mul hc).sub hs).div d3 n3
    convert this using 1
    field_simp
    ring
  · have := (((hid.mul hs).sub_const 2).add (hc.const_mul 2)).div d4 n4
    convert this using 1
    field_simp
    ring
  · have := (((hs.const_mul 3).sub (hid.const_mul 2)).sub (hid.mul hc)).div d5 n5
    convert this using 1
    field_simp
    ring

/-- C20: for every angle `θ > 0` the closed forms of the general branch of
`GibSO3`, as functions of the angle (`angle2 = angle·angle`), satisfy
`d a[i]/dθ = θ·b[i]` and `d b[i]/dθ = θ·c[i]` for `i = 1, 2, 3`. -/
theorem GibSO3_general_derivative_chain (θ : ℝ) (h : 0 < θ) (a0 b0 c0 : Coef ℝ) (i : Fin 4)
    (hi : i ≠ 0) :
    HasDerivAt (fun t : ℝ => (GibSO3_general Libm.real (t * t) t a0 b0 c0).1 i)
      (θ * (GibSO3_general Libm.real (θ * θ) θ a0 b0 c0).2.1 i) θ ∧
    HasDerivAt (fun t : ℝ => (GibSO3_general Libm.real (t * t) t a0 b0 c0).2.1 i)
      (θ * (GibSO3_general Libm.real (θ * θ) θ a0 b0 c0).2.2 i) θ := by
  obtain ⟨h1, h2, h3, h4, h5, h6⟩ := closed_form_derivatives θ h.ne'
  fin_cases i
  · exact absurd rfl hi
  · simp only [Fin.mk_one, (GibSO3_general_a _ _ _ _ _ _).1, (GibSO3_general_b _ _ _ _ _ _).1,
      (GibSO3_general_c _ _ _ _ _ _).1, Libm.real]
    exact ⟨h1, h4⟩
  · simp only [Fin.reduceFinMk, (GibSO3_general_a _ _ _ _ _ _).2.1,
      (GibSO3_general_b _ _ _ _ _ _).2.1, (GibSO3_general_c _ _ _ _ _ _).2.1, Libm.real]
    exact ⟨h2, h5⟩
  · simp only [Fin.reduceFinMk, (GibSO3_general_a _ _ _ _ _ _).2.2,
      (GibSO3_general_b _ _ _ _ _ _).2.2, (GibSO3_general_c _ _ _ _ _ _).2.2, Libm.real]
    exact ⟨h3, h6⟩

/-- C20 at `θ = 1`, `i = 1`. -/
theorem GibSO3_general_derivative_chain_witness :
    (0 : ℝ) < 1 ∧ (1 : Fin 4) ≠ 0 ∧
    HasDerivAt (fun t : ℝ => (GibSO3_general Libm.real (t * t) t localCoef localCoef localCoef).1 1)
      (1 * (GibSO3_general Libm.real (1 * 1) 1 localCoef localCoef localCoef).2.1 1) 1 ∧
    HasDerivAt
      (fun t : ℝ => (GibSO3_general Libm.real (t * t) t localCoef localCoef localCoef).2.1 1)
      (1 * (GibSO3_general Libm.real (1 * 1) 1 localCoef localCoef localCoef).2.2 1) 1 :=
  ⟨by norm_num, by decide,
    GibSO3_general_derivative_chain 1 (by norm_num) localCoef localCoef localCoef 1 (by decide)⟩

end Rotations
